import Mathlib

/-!
# Verification of the Smartflo telephony event-reconciliation subsystem

Shallow embedding of the webhook controller
(`src/Controller/SmartfloWebhookController.js`), the CallLog schema
(`CallLogSchema` in `src/Controller/DataLogic.js`), the Entry (lead) schema
(`src/Schema/DataModel.js`), and the cache middleware
(`src/unnamed/part_001`) of the DMS_Server_VPS repository, together with
proofs and refutations of the specification's claims about them.

Modelling conventions (fixed once, used throughout):

* JavaScript `undefined`, `null` and the empty string `""` are all falsy and
  are treated interchangeably by every truthiness test in the modelled code
  (`a || b`, `if (x)`, `x ? y : z`).  They are modelled as `Option.none`;
  `some s` always stands for a non-empty string.  The one place the code
  distinguishes them (`duration !== undefined`) involves a numeric field,
  modelled as `Option Int` where `none` is `undefined`.
* `Date` values are modelled by `JsDate`: either constructed from a payload
  string (`new Date(start_time)`) or from the ambient clock (`new Date()`,
  `Date.now()`), which the embedding passes in explicitly as a `Nat`.
* Mongoose document ids: lead and user `_id`s are hex strings; CallLog
  `_id`s are drawn from a counter in the database state.
* `parseInt` is applied to numeric payload fields only; the payload model
  carries them as `Int` already.
-/

namespace DMS

/-- A JavaScript `Date`: either `new Date(s)` from a payload string or a
clock reading `new Date()` / an offset computed from one. -/
inductive JsDate where
  | ofString (s : String)
  | ofNow (t : Nat)
  deriving DecidableEq, Repr

/-- JS truthiness of an (already normalised) optional string: `none` models
`undefined` / `null` / `""`, all falsy; `some` is truthy. -/
def truthy (o : Option String) : Bool := o.isSome

/-- JS `a || b` on string-valued expressions under the normalisation above. -/
def jsOr (a b : Option String) : Option String := a <|> b

/-- Index of the first occurrence of `pat` in `s` (as character lists),
`none` if absent.  Used to model JS `String.prototype.includes` and the
unanchored `RegExp.test` of the cache middleware. -/
def findSubIdx : List Char → List Char → Option Nat
  | _, [] => some 0
  | [], _ :: _ => none
  | c :: rest, pat =>
    if pat.isPrefixOf (c :: rest) then some 0
    else (findSubIdx rest pat).map (· + 1)

/-- JS `s.includes(pat)`. -/
def strContains (s pat : String) : Bool :=
  (findSubIdx s.data pat.data).isSome

/-- ASCII lower-casing of one character (JS `toLowerCase` restricted to the
ASCII range, which covers every string the controller compares). -/
def charToLower (c : Char) : Char :=
  if 'A' ≤ c ∧ c ≤ 'Z' then Char.ofNat (c.toNat + 32) else c

/-- JS `s.toLowerCase()` (ASCII). -/
def strToLower (s : String) : String := ⟨s.data.map charToLower⟩

/-- Split a character list at every occurrence of `sep`. -/
def splitListOn (sep : Char) : List Char → List (List Char)
  | [] => [[]]
  | c :: rest =>
    if c = sep then [] :: splitListOn sep rest
    else
      match splitListOn sep rest with
      | h :: t => (c :: h) :: t
      | [] => [[c]]

/-- JS `s.split(sep)` for a one-character separator (`''.split` returns
`[""]`, like JS). -/
def strSplitOnChar (s : String) (sep : Char) : List String :=
  (splitListOn sep s.data).map fun cs => ⟨cs⟩

/-! ## Status normalizer (`mapSmartfloStatus`, SmartfloWebhookController.js 560-610)

The synonym table is a plain JS object literal, so a property read
`statusMap[status]` falls back to `Object.prototype` when the key is not an
own property: `statusMap["constructor"]` is the `Object` constructor
function (truthy, not a string).  The embedding keeps that semantics:
`SfStatus.protoMember k` stands for the non-string value inherited from
`Object.prototype` under key `k`. -/

/-- The canonical call-status enum of `CallLogSchema.callStatus`. -/
def callStatusEnum : List String :=
  ["initiated", "ringing", "answered", "completed", "failed",
   "no_answer", "busy", "cancelled"]

/-- Result of the JS expression `statusMap[status] || "initiated"`: either a
string, or a value inherited from `Object.prototype` (a function or
object, never a string). -/
inductive SfStatus where
  | s (v : String)
  | protoMember (k : String)
  deriving DecidableEq, Repr

/-- JS truthiness of a looked-up status value: the inherited
`Object.prototype` members are functions/objects, hence truthy. -/
def sfTruthy : SfStatus → Bool
  | .s v => v ≠ ""
  | .protoMember _ => true

/-- The `statusMap` object literal, verbatim from the source. -/
def statusMap : List (String × String) :=
  [("call.initiated", "initiated"),
   ("call.ringing", "ringing"),
   ("call.answered", "answered"),
   ("call.completed", "completed"),
   ("call.failed", "failed"),
   ("call.no_answer", "no_answer"),
   ("call.busy", "busy"),
   ("call.cancelled", "cancelled"),
   ("initiated", "initiated"),
   ("ringing", "ringing"),
   ("answered", "answered"),
   ("completed", "completed"),
   ("failed", "failed"),
   ("no_answer", "no_answer"),
   ("busy", "busy"),
   ("cancelled", "cancelled"),
   ("answer", "answered"),
   ("pickup", "answered"),
   ("connected", "answered"),
   ("hangup", "completed"),
   ("end", "completed"),
   ("finished", "completed"),
   ("noanswer", "no_answer"),
   ("timeout", "no_answer"),
   ("reject", "failed"),
   ("error", "failed"),
   ("declined", "failed"),
   ("unreachable", "failed")]

/-- Enumerable-or-not own properties of `Object.prototype` in a standard JS
runtime: reading any of these keys on an object literal yields an inherited
function/object value rather than `undefined`. -/
def objectProtoKeys : List String :=
  ["constructor", "hasOwnProperty", "isPrototypeOf", "propertyIsEnumerable",
   "toLocaleString", "toString", "valueOf", "__proto__",
   "__defineGetter__", "__defineSetter__", "__lookupGetter__",
   "__lookupSetter__"]

/-- JS property read `statusMap[k]` on the object literal, including the
prototype chain. -/
def statusMapRead (k : String) : Option SfStatus :=
  match statusMap.lookup k with
  | some v => some (.s v)
  | none => if k ∈ objectProtoKeys then some (.protoMember k) else none

/-- `mapSmartfloStatus` (SmartfloWebhookController.js 560-610).
`none` input models a falsy argument (`undefined`/`null`/`""`). -/
def mapSmartfloStatus (smartfloStatus : Option String) : SfStatus :=
  match smartfloStatus with
  | none => .s "initiated"
  | some raw =>
    let status := strToLower raw
    match statusMapRead status with
    | some v => if sfTruthy v then v else .s "initiated"
    | none => .s "initiated"

/-! ## Signature verifier (`verifyOutboundWebhookSignature`, 615-683,
and `verifyInboundWebhookSignature`, 688-751)

HMAC-SHA256 itself is kept abstract (`hmac secret message` returns the hex
digest string); the JSON serializations of the payload are likewise
supplied abstractly, since the verifier only ever treats them as opaque
strings fed to the HMAC.  What is modelled concretely is everything the
function itself does: prefix stripping, length comparison, truncated
comparison, the alternative-serialization loop, and the
`crypto.timingSafeEqual(Buffer.from(·,'hex'), ·)` comparison (a throw on
length mismatch is caught by the function's own `try`/`catch`, yielding
`false`). -/

/-- Value of a hex digit character, `none` otherwise (Node's hex decoder
accepts both cases). -/
def hexDigitVal (c : Char) : Option Nat :=
  if '0' ≤ c ∧ c ≤ '9' then some (c.toNat - '0'.toNat)
  else if 'a' ≤ c ∧ c ≤ 'f' then some (c.toNat - 'a'.toNat + 10)
  else if 'A' ≤ c ∧ c ≤ 'F' then some (c.toNat - 'A'.toNat + 10)
  else none

/-- `Buffer.from(s, 'hex')`: decode pairs of hex digits, stopping at the
first invalid pair (Node truncates there); a dangling single digit is
dropped. -/
def hexDecodeJs : List Char → List Nat
  | c₁ :: c₂ :: rest =>
    match hexDigitVal c₁, hexDigitVal c₂ with
    | some h, some l => (h * 16 + l) :: hexDecodeJs rest
    | _, _ => []
  | _ => []

/-- `crypto.timingSafeEqual(Buffer.from(a,'hex'), Buffer.from(b,'hex'))`,
with the RangeError thrown on unequal buffer lengths absorbed into `false`
(the caller catches it and returns `false`). -/
def timingSafeEqualHex (a b : String) : Bool :=
  let ba := hexDecodeJs a.data
  let bb := hexDecodeJs b.data
  ba.length == bb.length && ba == bb

/-- JS `s.startsWith(pre)` (code-unit based; all strings involved here are
ASCII, so characters coincide with code units). -/
def jsStartsWith (s pre : String) : Bool := pre.data.isPrefixOf s.data

/-- JS `s.substring(n)`. -/
def strDrop (s : String) (n : Nat) : String := ⟨s.data.drop n⟩

/-- JS `s.substring(0, n)` (like JS, clamps when `n` exceeds the length). -/
def strTake (s : String) (n : Nat) : String := ⟨s.data.take n⟩

/-- JS `s.length`. -/
def strLen (s : String) : Nat := s.data.length

/-- The cryptographic collaborators of the verifier, abstract: an HMAC-SHA256
hex-digest function and the three JSON serializations of a payload that the
source tries (`JSON.stringify(p)` = `JSON.stringify(p, null, 0)`,
`JSON.stringify(p, null, 2)`, `JSON.stringify(p, Object.keys(p).sort())`). -/
structure CryptoEnv (π : Type) where
  hmac : String → String → String
  stringify : π → String
  stringifyPretty : π → String
  stringifySorted : π → String

/-- Core of `verifyOutboundWebhookSignature` / `verifyInboundWebhookSignature`
(the two bodies are identical up to which secret is consulted, which the
caller supplies).  `signature = none` models a falsy signature argument. -/
def verifySignatureWith {π : Type} (c : CryptoEnv π) (secret : Option String)
    (signature : Option String) (payload : π) : Bool :=
  match secret with
  | none => true
  | some sec =>
    match signature with
    | none => false
    | some sig =>
      let hash := c.hmac sec (c.stringify payload)
      let normalized := if jsStartsWith sig "sha256=" then strDrop sig 7 else sig
      if strLen normalized ≠ strLen hash then
        if strLen normalized < strLen hash ∧
            normalized = strTake hash (strLen normalized) then
          true
        else
          let alts := [c.stringify payload, c.stringifyPretty payload,
                       c.stringifySorted payload]
          alts.any fun altPayload =>
            let altHash := c.hmac sec altPayload
            normalized == strTake altHash (strLen normalized) ||
              normalized == altHash
      else
        timingSafeEqualHex normalized hash

/-! ## Cache layer (`src/unnamed/part_001`, cache middleware over node-cache)

The middleware turns a glob-ish pattern into an unanchored regex
(`pattern.replace(/\*/g, '.*')`) and calls `regex.test(key)`.  Since the
regex is unanchored and `.*` matches anything, `test` succeeds exactly when
the literal segments of the pattern (the pieces between `*`s) occur in the
key, in order, without overlapping.  `globTest` implements that directly
(greedy earliest-occurrence matching, which is complete for this pattern
class). -/

/-- Does `key` contain the literal segments `segs` in order (each segment
found strictly after the end of the previous one)? -/
def segsInOrder : List String → List Char → Bool
  | [], _ => true
  | seg :: rest, cs =>
    match findSubIdx cs seg.data with
    | none => false
    | some i => segsInOrder rest (cs.drop (i + seg.data.length))

/-- `new RegExp(pattern.replace(/\*/g, '.*')).test(key)` for the middleware's
patterns. -/
def globTest (pattern key : String) : Bool :=
  segsInOrder (strSplitOnChar pattern '*') key.data

/-- Fallible primitives of the underlying cache store (node-cache), over an
abstract store state `σ`.  Each call may throw (modelled as `Except`) and
may change the store. -/
structure CacheOps (σ : Type) where
  set : String → Int → Nat → σ → Except String Bool × σ
  get : String → σ → Except String (Option Int) × σ
  del : String → σ → Except String Nat × σ
  keysOp : σ → Except String (List String) × σ
  flushAll : σ → Except String Unit × σ

/-- `setcache` (part_001 lines 14-26): `try { return cache.set(...) } catch
{ return false }`. -/
def setcache {σ} (ops : CacheOps σ) (key : String) (data : Int) (ttl : Nat)
    (st : σ) : Bool × σ :=
  match ops.set key data ttl st with
  | (.ok b, st') => (b, st')
  | (.error _, st') => (false, st')

/-- `getCachedData` (lines 33-49): `try { return cache.get(key) } catch
{ return null }`. -/
def getCachedData {σ} (ops : CacheOps σ) (key : String) (st : σ) :
    Option Int × σ :=
  match ops.get key st with
  | (.ok v, st') => (v, st')
  | (.error _, st') => (none, st')

/-- `deleteCache` (lines 56-67): `try { return cache.del(key) } catch
{ return 0 }`. -/
def deleteCache {σ} (ops : CacheOps σ) (key : String) (st : σ) : Nat × σ :=
  match ops.del key st with
  | (.ok n, st') => (n, st')
  | (.error _, st') => (0, st')

/-- The patterns `smartInvalidate` builds for a data type and optional user
id (lines 137-168). -/
def smartInvalidatePatterns (dataType : String) (userId : Option String) :
    List String :=
  match dataType with
  | "calls" =>
    ["call_history_*", "call_stats_*", "call_details_*"] ++
      (match userId with
       | some uid => ["*_" ++ uid ++ "_*"]
       | none => [])
  | "entries" =>
    ["entries_*", "entry_counts_*"] ++
      (match userId with
       | some uid => ["*_" ++ uid ++ "_*"]
       | none => [])
  | "users" =>
    ["user_role_*"] ++
      (match userId with
       | some uid => ["user_role_" ++ uid]
       | none => [])
  | _ => []

/-- Delete every key matching `pattern`: `allKeys = cache.keys(); matching =
filter; matching.forEach(k => cache.del(k))` (lines 171-184).  An exception
from a primitive aborts the whole loop (propagated to the outer catch). -/
def deleteKeysList {σ} (ops : CacheOps σ) (keys : List String) (st : σ) :
    Except String Unit × σ :=
  match keys with
  | [] => (.ok (), st)
  | k :: rest =>
    match ops.del k st with
    | (.ok _, st') => deleteKeysList ops rest st'
    | (.error e, st') => (.error e, st')

/-- One iteration of `patterns.forEach`: re-read the key set, filter by the
pattern, delete the matches. -/
def deleteOnePattern {σ} (ops : CacheOps σ) (pattern : String) (st : σ) :
    Except String Unit × σ :=
  match ops.keysOp st with
  | (.ok allKeys, st') =>
    deleteKeysList ops (allKeys.filter fun k => globTest pattern k) st'
  | (.error e, st') => (.error e, st')

/-- `patterns.forEach(pattern => ...)` over the whole pattern list. -/
def deletePatterns {σ} (ops : CacheOps σ) (patterns : List String) (st : σ) :
    Except String Unit × σ :=
  match patterns with
  | [] => (.ok (), st)
  | pat :: rest =>
    match deleteOnePattern ops pat st with
    | (.ok _, st') => deletePatterns ops rest st'
    | (.error e, st') => (.error e, st')

/-- `smartInvalidate` (lines 130-191): build the patterns, delete matching
keys (special case `'all'`: `cache.flushAll()`), return `true`; any thrown
error is caught and `false` returned. -/
def smartInvalidate {σ} (ops : CacheOps σ) (dataType : String)
    (userId : Option String) (st : σ) : Bool × σ :=
  if dataType = "all" then
    match ops.flushAll st with
    | (.ok _, st') => (true, st')
    | (.error e, st') =>
      -- the outer catch
      let _ := e; (false, st')
  else
    match deletePatterns ops (smartInvalidatePatterns dataType userId) st with
    | (.ok _, st') => (true, st')
    | (.error _, st') => (false, st')

/-! The real store behind the middleware is the in-memory node-cache
instance of `src/utils/Cache.js`: an in-process key/value map whose
primitives do not throw.  (TTL expiry and the `maxKeys` bound are
irrelevant to the invalidation claims and are not modelled.) -/

/-- In-memory store state: the live key/value pairs. -/
abbrev NodeCacheState : Type := List (String × Int)

/-- The node-cache primitives: total, never throwing. -/
def nodeCacheOps : CacheOps NodeCacheState where
  set key v _ttl st :=
    (.ok true, (st.filter fun kv => kv.1 != key) ++ [(key, v)])
  get key st := (.ok ((st.lookup key)), st)
  del key st :=
    ((.ok (st.filter fun kv => kv.1 == key).length),
     st.filter fun kv => kv.1 != key)
  keysOp st := (.ok (st.map Prod.fst), st)
  flushAll _st := (.ok (), [])

/-! ## Data model

Documents of the three Mongoose collections used by the webhook
controller: `User` (`src/Schema/Model.js`), `Entry` (leads,
`src/Schema/DataModel.js`, the Smartflo-enhanced schema) and `CallLog`
(`CallLogSchema` in `src/Controller/DataLogic.js`). -/

/-- `transfer_data` object of a webhook payload. -/
structure TransferInfo where
  from_agent : Option String := none
  to_agent : Option String := none
  reason : Option String := none
  time : Option String := none
  typ : Option String := none   -- the payload's `type` field
  deriving DecidableEq, Repr

/-- `ivr_data` object of a webhook payload. -/
structure IvrInfo where
  menu_selections : Option (List String) := none
  dtmf_inputs : Option (List String) := none
  duration : Option Int := none
  deriving DecidableEq, Repr

/-- A webhook JSON body, with every field the controller destructures or
reads.  `none` models an absent / `null` / empty-string field (JS-falsy);
see the conventions at the top of the file. -/
structure Payload where
  call_id : Option String := none
  custom_identifier : Option String := none
  event_type : Option String := none
  call_status : Option String := none
  agent_number : Option String := none
  destination_number : Option String := none
  caller_id : Option String := none
  virtual_number : Option String := none
  called_number : Option String := none
  start_time : Option String := none
  end_time : Option String := none
  duration : Option Int := none
  recording_url : Option String := none
  disposition : Option String := none
  direction : Option String := none
  queue_id : Option String := none
  queue_wait_time : Option Int := none
  transfer_data : Option TransferInfo := none
  ivr_data : Option IvrInfo := none
  call_direction : Option String := none
  call_type : Option String := none
  inbound : Option Bool := none
  caller_id_number : Option String := none
  call_to_number : Option String := none
  caller_number : Option String := none
  deriving DecidableEq, Repr

/-- JS object spread `{...old, ...new}` on two payload objects: fields
present in `new` win, absent ones are kept from `old`. -/
def mergePayload (old new : Payload) : Payload where
  call_id := new.call_id <|> old.call_id
  custom_identifier := new.custom_identifier <|> old.custom_identifier
  event_type := new.event_type <|> old.event_type
  call_status := new.call_status <|> old.call_status
  agent_number := new.agent_number <|> old.agent_number
  destination_number := new.destination_number <|> old.destination_number
  caller_id := new.caller_id <|> old.caller_id
  virtual_number := new.virtual_number <|> old.virtual_number
  called_number := new.called_number <|> old.called_number
  start_time := new.start_time <|> old.start_time
  end_time := new.end_time <|> old.end_time
  duration := new.duration <|> old.duration
  recording_url := new.recording_url <|> old.recording_url
  disposition := new.disposition <|> old.disposition
  direction := new.direction <|> old.direction
  queue_id := new.queue_id <|> old.queue_id
  queue_wait_time := new.queue_wait_time <|> old.queue_wait_time
  transfer_data := new.transfer_data <|> old.transfer_data
  ivr_data := new.ivr_data <|> old.ivr_data
  call_direction := new.call_direction <|> old.call_direction
  call_type := new.call_type <|> old.call_type
  inbound := new.inbound <|> old.inbound
  caller_id_number := new.caller_id_number <|> old.caller_id_number
  call_to_number := new.call_to_number <|> old.call_to_number
  caller_number := new.caller_number <|> old.caller_number

/-- A `User` document (the fields the controller reads). -/
structure UserDoc where
  id : String
  role : String
  smartfloAgentNumber : Option String := none
  deriving DecidableEq, Repr

/-- An `Entry` (lead) document — the fields the controller reads or writes.
`callbackScheduled`, `callbackReason` and `totalInboundCalls` are written
by the controller although no Entry schema declares them; they are kept in
the model since no claim depends on Mongoose strict mode dropping them. -/
structure LeadDoc where
  id : String
  customerName : Option String := none
  mobileNumber : Option String := none
  status : String := "Not Found"
  organization : Option String := none
  category : Option String := none
  address : Option String := none
  state : Option String := none
  city : Option String := none
  source : Option String := none
  createdBy : Option String := none
  lastCallDate : Option JsDate := none
  lastCallStatus : Option SfStatus := none
  totalCallsMade : Nat := 0
  totalInboundCalls : Nat := 0
  callbackScheduled : Option JsDate := none
  callbackReason : Option String := none
  deriving DecidableEq, Repr

/-- `transferData` subdocument of a CallLog. -/
structure TransferRec where
  transferredFrom : Option String := none
  transferredTo : Option String := none
  transferReason : Option String := none
  transferTime : JsDate
  transferType : String
  deriving DecidableEq, Repr

/-- `ivrData` subdocument of a CallLog. -/
structure IvrRec where
  menuSelections : List String := []
  dtmfInputs : List String := []
  ivrDuration : Int := 0
  deriving DecidableEq, Repr

/-- A `CallLog` document (`CallLogSchema`, DataLogic.js).  `id` models the
Mongo `_id`, drawn from a counter in the database state. -/
structure CallLogDoc where
  id : Nat
  leadId : String
  userId : Option String := none
  agentNumber : Option String := none
  destinationNumber : Option String := none
  callerId : Option String := none
  virtualNumber : Option String := none
  providerCallId : Option String := none
  customIdentifier : Option String := none
  callStatus : SfStatus := .s "initiated"
  callDirection : String := "outbound"
  queueId : Option String := none
  queueWaitTime : Int := 0
  assignedAt : Option JsDate := none
  routingReason : String := "direct"
  startTime : Option JsDate := none
  endTime : Option JsDate := none
  duration : Int := 0
  recordingUrl : Option String := none
  disposition : Option String := none
  transferData : Option TransferRec := none
  ivrData : Option IvrRec := none
  source : String := "SMARTFLO"
  webhookData : Payload := {}
  deriving DecidableEq, Repr

/-- The persistent store: the three collections plus id counters. -/
structure DB where
  users : List UserDoc := []
  leads : List LeadDoc := []
  callLogs : List CallLogDoc := []
  nextCallLogId : Nat := 0
  nextLeadNum : Nat := 0
  deriving DecidableEq, Repr

/-- Errors thrown by the modelled Mongoose/driver operations. -/
inductive JsError where
  | validation (msg : String)
  | duplicateKey (msg : String)
  | castError (value : String)
  | noUsers
  deriving DecidableEq, Repr

/-- `error.message`, surfaced in the catch-all response body. -/
def JsError.msg : JsError → String
  | .validation m => m
  | .duplicateKey m => m
  | .castError v => "Cast to ObjectId failed for value " ++ v
  | .noUsers => "No users available to assign as lead creator"

/-! ### Mongoose operation models -/

/-- Mongoose accepts a 24-character hex string or a 12-character string as
an `ObjectId`; anything else makes `findById` reject with a `CastError`. -/
def isValidObjectIdString (s : String) : Bool :=
  (s.length == 24 && s.data.all fun c => (hexDigitVal c).isSome) ||
    s.length == 12

def findUserByAgentNumber (db : DB) (an : String) : Option UserDoc :=
  db.users.find? fun u => u.smartfloAgentNumber == some an

/-- `User.findOne({ role: { $in: ["Admin", "Superadmin"] } })`. -/
def findFirstAdmin (db : DB) : Option UserDoc :=
  db.users.find? fun u => u.role == "Admin" || u.role == "Superadmin"

/-- `User.findById` on an id that is already an `ObjectId` value (no cast). -/
def findUserByIdVal (db : DB) (uid : String) : Option UserDoc :=
  db.users.find? fun u => u.id == uid

/-- `User.findById(s)` on a string taken from the payload: Mongoose casts it
first and rejects the query with a `CastError` when it is not a valid
`ObjectId` — that rejection is what the controller's outer catch sees. -/
def userFindByIdCast (db : DB) (s : String) : Except JsError (Option UserDoc) :=
  if isValidObjectIdString s then .ok (findUserByIdVal db s)
  else .error (.castError s)

/-- `Entry.findOne({ mobileNumber: phone })`.  When `phone` is `undefined`,
Mongoose strips the undefined filter value, so the query becomes
`findOne({})` and returns the first lead in the collection. -/
def findLeadByMobile (db : DB) (phone : Option String) : Option LeadDoc :=
  match phone with
  | some ph => db.leads.find? fun l => l.mobileNumber == some ph
  | none => db.leads.head?

def findLeadById (db : DB) (lid : String) : Option LeadDoc :=
  db.leads.find? fun l => l.id == lid

def findCallLogByProviderId (db : DB) (cid : String) : Option CallLogDoc :=
  db.callLogs.find? fun r => r.providerCallId == some cid

def findCallLogByCustomId (db : DB) (ci : String) : Option CallLogDoc :=
  db.callLogs.find? fun r => r.customIdentifier == some ci

/-- Record lookup of `handleCallEvents` (lines 121-131): first by provider
call id, then — only if that found nothing and a custom identifier is
present — by custom identifier. -/
def lookupCallLog (db : DB) (callId : String) (ci : Option String) :
    Option CallLogDoc :=
  match findCallLogByProviderId db callId with
  | some r => some r
  | none =>
    match ci with
    | some c => findCallLogByCustomId db c
    | none => none

/-- Document validation of the `Entry` schema as far as the controller can
violate it: `createdBy` is `required`, and `mobileNumber` must be exactly
ten digits when present (`match: /^\d{10}$/`, skipped for empty values). -/
def validLeadDoc (l : LeadDoc) : Bool :=
  l.createdBy.isSome &&
    (match l.mobileNumber with
     | some m => m.length == 10 && m.data.all Char.isDigit
     | none => true)

/-- Document validation of `CallLogSchema`: `userId`, `agentNumber`,
`destinationNumber` are `required` (fails on `undefined`/`null`/`""`),
`callStatus`/`callDirection`/`routingReason`/`source`/`transferType` are
constrained by `enum`, and `duration`/`queueWaitTime` have `min: 0`. -/
def validCallLogDoc (r : CallLogDoc) : Bool :=
  r.userId.isSome && r.agentNumber.isSome && r.destinationNumber.isSome &&
    (match r.callStatus with
     | .s v => callStatusEnum.contains v
     | .protoMember _ => false) &&
    ["outbound", "inbound"].contains r.callDirection &&
    ["direct", "queue", "transfer", "callback", "ivr", "outbound"].contains
      r.routingReason &&
    ["SMARTFLO", "MANUAL", "WEBHOOK"].contains r.source &&
    r.duration ≥ 0 && r.queueWaitTime ≥ 0 &&
    (match r.transferData with
     | some td => ["blind", "attended", "warm"].contains td.transferType
     | none => true)

/-- `lead.save()` for a newly constructed lead: validate, then insert. -/
def insertLead (db : DB) (l : LeadDoc) : Except JsError DB :=
  if validLeadDoc l then
    .ok { db with leads := db.leads ++ [l], nextLeadNum := db.nextLeadNum + 1 }
  else .error (.validation "Entry validation failed")

/-- `lead.save()` for a fetched (already persisted) lead: validate, then
replace the stored document. -/
def saveLeadUpdate (db : DB) (l : LeadDoc) : Except JsError DB :=
  if validLeadDoc l then
    .ok { db with leads := db.leads.map fun x => if x.id == l.id then l else x }
  else .error (.validation "Entry validation failed")

/-- `callLog.save()` for a newly constructed CallLog: validation first, then
the insert, which the unique sparse index on `providerCallId` guards — a
second document with the same non-null provider call id makes the insert
fail fast with a duplicate-key error. -/
def insertCallLog (db : DB) (r : CallLogDoc) : Except JsError DB :=
  if ¬ validCallLogDoc r then .error (.validation "CallLog validation failed")
  else if (match r.providerCallId with
           | some cid => db.callLogs.any fun x => x.providerCallId == some cid
           | none => false) then
    .error (.duplicateKey "E11000 duplicate key error")
  else
    .ok { db with callLogs := db.callLogs ++ [r],
                  nextCallLogId := db.nextCallLogId + 1 }

/-- `callLog.save()` for a fetched CallLog: validate, then replace the
stored document.  (The controller never modifies `providerCallId` of an
existing record, so the unique index cannot fire here.) -/
def saveCallLogUpdate (db : DB) (r : CallLogDoc) : Except JsError DB :=
  if validCallLogDoc r then
    .ok { db with
          callLogs := db.callLogs.map fun x => if x.id == r.id then r else x }
  else .error (.validation "CallLog validation failed")

/-! ## Webhook endpoint environment and handlers -/

/-- Process environment and crypto collaborators of the webhook
controller. -/
structure Env where
  outboundSecret : Option String := none   -- SMARTFLO_OUTBOUND_WEBHOOK_SECRET
  inboundSecret : Option String := none    -- SMARTFLO_INBOUND_WEBHOOK_SECRET
  fallbackSecret : Option String := none   -- SMARTFLO_WEBHOOK_SECRET
  production : Bool := false               -- NODE_ENV === 'production'
  crypto : CryptoEnv Payload

/-- `verifyOutboundWebhookSignature` (lines 615-683): consults the outbound
secret, falling back to the shared secret. -/
def verifyOutboundWebhookSignature (env : Env) (signature : Option String)
    (p : Payload) : Bool :=
  verifySignatureWith env.crypto (jsOr env.outboundSecret env.fallbackSecret)
    signature p

/-- `verifyInboundWebhookSignature` (lines 688-751). -/
def verifyInboundWebhookSignature (env : Env) (signature : Option String)
    (p : Payload) : Bool :=
  verifySignatureWith env.crypto (jsOr env.inboundSecret env.fallbackSecret)
    signature p

/-- The webhook HTTP response body (plus status code). -/
structure WebResp where
  status : Nat
  success : Bool
  message : String
  error : Option String := none
  callLogId : Option Nat := none
  direction : Option String := none
  virtualNumber : Option String := none
  leadId : Option String := none
  action : Option String := none
  deriving DecidableEq, Repr

/-- The catch-all response (lines 373-380 / 548-554): any thrown error
still yields HTTP 200; the body carries `success: false` and the error
message. -/
def catchResp (e : JsError) : WebResp where
  status := 200
  success := false
  message := "Webhook received but processing failed"
  error := some e.msg

/-- `virtual_number || called_number || agent_number` (line 100). -/
def virtualNumOf (p : Payload) : Option String :=
  jsOr (jsOr p.virtual_number p.called_number) p.agent_number

/-- The inbound-detection heuristic (lines 103-116), transcribed
condition-for-condition. -/
def isInboundPayload (p : Payload) : Bool :=
  p.direction == some "inbound" || p.direction == some "INBOUND" ||
    p.direction == some "Inbound" ||
  p.call_direction == some "inbound" || p.call_direction == some "INBOUND" ||
    p.call_direction == some "Inbound" ||
  p.call_type == some "inbound" || p.call_type == some "INBOUND" ||
    p.call_type == some "Inbound" ||
  (match p.event_type with
   | some e => strContains (strToLower e) "inbound"
   | none => false) ||
  p.inbound == some true ||
  (p.caller_id.isSome && p.called_number.isSome &&
    p.custom_identifier.isNone) ||
  (p.caller_id.isSome && p.called_number.isSome &&
    p.virtual_number == p.called_number) ||
  (p.caller_id.isSome && p.custom_identifier.isNone &&
    (virtualNumOf p).isSome) ||
  (p.caller_id.isSome && p.custom_identifier.isNone &&
    !(p.event_type == some "call.initiated"))

/-- `call_id || WEBHOOK_<Date.now()>` (line 119): events with no call id
get a fresh timestamp-based identifier. -/
def callIdOf (p : Payload) (now : Nat) : String :=
  match p.call_id with
  | some cid => cid
  | none => "WEBHOOK_" ++ toString now

/-- `phoneToMatch` (lines 136-138). -/
def phoneToMatchOf (p : Payload) (inb : Bool) : Option String :=
  if inb then
    jsOr (jsOr (jsOr p.caller_id p.caller_id_number) p.destination_number)
      p.call_to_number
  else jsOr p.destination_number p.call_to_number

/-- Early agent resolution (lines 140-160).  For outbound events without a
matching agent number, a custom identifier with at least three
`_`-separated parts sends its third part to `User.findById`, which rejects
with a `CastError` when that part is not a valid `ObjectId` (the comment
in the source expects the format `CRM_leadId_userId_timestamp`). -/
def resolveAssignedUser (db : DB) (p : Payload) (inb : Bool) :
    Except JsError (Option UserDoc) :=
  if inb then
    .ok (match p.agent_number with
         | some an => findUserByAgentNumber db an
         | none => none)
  else
    match (match p.agent_number with
           | some an => findUserByAgentNumber db an
           | none => none) with
    | some u => .ok (some u)
    | none =>
      match p.custom_identifier with
      | none => .ok none
      | some ci =>
        match strSplitOnChar ci '_' with
        | _ :: _ :: uid :: _ => userFindByIdCast db uid
        | _ => .ok none

/-- `createLeadForInboundCall` (lines 756-787): pick a default creator
(assigned agent, else first admin, else any user — throwing when none
exists), then construct and save the placeholder lead.  The save validates
the `Entry` schema, so a phone that is not ten digits (`"Unknown"`
included) is rejected there. -/
def createLeadForInboundCall (db : DB) (phoneNumber : String)
    (assigned : Option UserDoc) : Except JsError (LeadDoc × DB) :=
  let defaultUser :=
    match assigned with
    | some u => some u
    | none =>
      match findFirstAdmin db with
      | some u => some u
      | none => db.users.head?
  match defaultUser with
  | none => .error .noUsers
  | some u =>
    let lead : LeadDoc :=
      { id := "lead_" ++ toString db.nextLeadNum
        customerName := some (if phoneNumber == "Unknown" then
            "Unknown Inbound Caller"
          else "Incoming Caller " ++ phoneNumber)
        mobileNumber := some phoneNumber
        status := "Not Found"
        organization := some "Unknown"
        category := some "Incoming Call"
        address := some "Unknown"
        state := some "Unknown"
        city := some "Unknown"
        createdBy := some u.id
        source := some "INCOMING_CALL" }
    match insertLead db lead with
    | .ok db1 => .ok (lead, db1)
    | .error e => .error e

/-- Lead resolution of the creation path (lines 162-187).  `.ok none`
models the early `"no matching lead"` acknowledgment for outbound events.
(The source repeats the guarded `createLeadForInboundCall` call twice; the
second occurrence is unreachable because the first either assigns a lead
or throws.) -/
def resolveLeadForCreate (db : DB) (inb : Bool) (phone : Option String)
    (assigned : Option UserDoc) : Except JsError (Option (LeadDoc × DB)) :=
  match findLeadByMobile db phone with
  | some l => .ok (some (l, db))
  | none =>
    match inb, phone with
    | true, some ph =>
      match createLeadForInboundCall db ph assigned with
      | .ok x => .ok (some x)
      | .error e => .error e
    | true, none =>
      match createLeadForInboundCall db "Unknown" assigned with
      | .ok x => .ok (some x)
      | .error e => .error e
    | false, _ => .ok none

/-- Completion of agent assignment in the creation path (lines 189-203):
for inbound events fall back to the lead's creator and then to any admin;
in all cases a final admin fallback runs when still unassigned. -/
def completeAssignedUser (db : DB) (inb : Bool) (lead : LeadDoc)
    (assigned : Option UserDoc) : Option UserDoc :=
  let a1 :=
    if inb then
      match assigned with
      | some u => some u
      | none =>
        match (match lead.createdBy with
               | some cb => findUserByIdVal db cb
               | none => none) with
        | some u => some u
        | none => findFirstAdmin db
    else assigned
  match a1 with
  | some u => some u
  | none => findFirstAdmin db

/-- Construction of a fresh CallLog (lines 206-223), including the schema
defaults applied by Mongoose at construction time (`startTime: Date.now`,
`duration: 0`). -/
def newCallLogDoc (db : DB) (now : Nat) (p : Payload) (inb : Bool)
    (virtualNum : Option String) (callId : String) (lead : LeadDoc)
    (assigned : Option UserDoc) : CallLogDoc where
  id := db.nextCallLogId
  leadId := lead.id
  userId := assigned.map (·.id)
  agentNumber := jsOr p.agent_number virtualNum
  destinationNumber :=
    if inb then jsOr p.caller_id p.destination_number
    else p.destination_number
  callerId := p.caller_id
  virtualNumber := virtualNum
  providerCallId := some callId
  customIdentifier := p.custom_identifier
  callStatus := mapSmartfloStatus (jsOr p.call_status p.event_type)
  callDirection := if inb then "inbound" else "outbound"
  queueId := p.queue_id
  queueWaitTime := p.queue_wait_time.getD 0
  assignedAt := if inb then some (.ofNow now) else none
  routingReason :=
    if inb then (if p.queue_id.isSome then "queue" else "direct")
    else "direct"
  startTime := some (.ofNow now)
  source := "WEBHOOK"
  webhookData := p

/-- Mutation of a found CallLog (lines 230-250): overwrite the status with
the latest normalized value, merge the raw webhook snapshot, fill the
virtual number and queue data only when empty, and force the direction to
inbound when the event says so. -/
def updateFoundFields (p : Payload) (inb : Bool) (virtualNum : Option String)
    (r : CallLogDoc) : CallLogDoc where
  -- The source mutates the fetched document field by field; since each
  -- guarded mutation tests only fields no earlier mutation touches, the
  -- sequence is written here as one record update with per-field
  -- conditionals over the pre-state.
  id := r.id
  leadId := r.leadId
  userId := r.userId
  agentNumber := r.agentNumber
  destinationNumber := r.destinationNumber
  callerId := r.callerId
  virtualNumber :=
    if r.virtualNumber.isNone && virtualNum.isSome then virtualNum
    else r.virtualNumber
  providerCallId := r.providerCallId
  customIdentifier := r.customIdentifier
  callStatus := mapSmartfloStatus (jsOr p.call_status p.event_type)
  callDirection :=
    if inb && r.callDirection ≠ "inbound" then "inbound"
    else r.callDirection
  queueId :=
    if p.queue_id.isSome && r.queueId.isNone then p.queue_id
    else r.queueId
  queueWaitTime :=
    if p.queue_id.isSome && r.queueId.isNone then p.queue_wait_time.getD 0
    else r.queueWaitTime
  assignedAt := r.assignedAt
  routingReason := r.routingReason
  startTime := r.startTime
  endTime := r.endTime
  duration := r.duration
  recordingUrl := r.recordingUrl
  disposition := r.disposition
  transferData := r.transferData
  ivrData := r.ivrData
  source := r.source
  webhookData := mergePayload r.webhookData p

/-- The `transferData` subdocument built from a payload's `transfer_data`
(lines 277-285): `transferTime` falls back to `new Date()` when the event
carries no time. -/
def transferRecOf (td : TransferInfo) (now : Nat) : TransferRec where
  transferredFrom := td.from_agent
  transferredTo := td.to_agent
  transferReason := td.reason
  transferTime :=
    match td.time with
    | some t => .ofString t
    | none => .ofNow now
  transferType := td.typ.getD "warm"

/-- The `ivrData` subdocument built from a payload's `ivr_data`
(lines 288-294). -/
def ivrRecOf (iv : IvrInfo) : IvrRec where
  menuSelections := iv.menu_selections.getD []
  dtmfInputs := iv.dtmf_inputs.getD []
  ivrDuration := iv.duration.getD 0

/-- The field updates shared by both paths (lines 252-294): timing,
duration, recording URL, disposition, transfer data, IVR data. -/
def applyCommonFields (p : Payload) (now : Nat) (r : CallLogDoc) :
    CallLogDoc where
  id := r.id
  leadId := r.leadId
  userId := r.userId
  agentNumber := r.agentNumber
  destinationNumber := r.destinationNumber
  callerId := r.callerId
  virtualNumber := r.virtualNumber
  providerCallId := r.providerCallId
  customIdentifier := r.customIdentifier
  callStatus := r.callStatus
  callDirection := r.callDirection
  queueId := r.queueId
  queueWaitTime := r.queueWaitTime
  assignedAt := r.assignedAt
  routingReason := r.routingReason
  startTime :=
    match p.start_time with
    | some s => some (.ofString s)
    | none => r.startTime
  endTime :=
    match p.end_time with
    | some s => some (.ofString s)
    | none => r.endTime
  duration :=
    match p.duration with          -- `if (duration !== undefined)`
    | some d => d
    | none => r.duration
  recordingUrl :=
    match p.recording_url with
    | some u => some u
    | none => r.recordingUrl
  disposition :=
    match p.disposition with
    | some d => some d
    | none => r.disposition
  transferData :=
    match p.transfer_data with
    | some td => some (transferRecOf td now)
    | none => r.transferData
  ivrData :=
    match p.ivr_data with
    | some iv => some (ivrRecOf iv)
    | none => r.ivrData
  source := r.source
  webhookData := r.webhookData

/-- Status text used by the template string
``Follow-up after ${callLog.callStatus}``. -/
def sfStatusText : SfStatus → String
  | .s v => v
  | .protoMember k => "[Object.prototype " ++ k ++ "]"

/-- The lead-update block (lines 326-362): stamp last-call data, advance a
`"Not Found"` lead on a meaningful completed call, schedule a 24-hour
callback after `no_answer`/`failed` when none is pending, and bump the
call counter. -/
def updateLeadAfterCall (db : DB) (now : Nat) (r : CallLogDoc) :
    Except JsError DB :=
  match findLeadById db r.leadId with
  | none => .ok db
  | some lead =>
    let lead1 := { lead with
      lastCallDate := some (.ofNow now)
      lastCallStatus := some r.callStatus }
    let lead2 :=
      if r.callStatus == SfStatus.s "completed" then
        if r.duration > 60 then
          if lead1.status == "Not Found" then { lead1 with status := "Interested" }
          else lead1
        else if r.duration > 10 then
          if lead1.status == "Not Found" then { lead1 with status := "Maybe" }
          else lead1
        else lead1
      else if r.callStatus == SfStatus.s "no_answer" ||
          r.callStatus == SfStatus.s "failed" then
        if lead1.callbackScheduled.isNone then
          { lead1 with
            callbackScheduled := some (.ofNow (now + 24 * 3600 * 1000))
            callbackReason :=
              some ("Follow-up after " ++ sfStatusText r.callStatus) }
        else lead1
      else lead1
    let lead3 := { lead2 with totalCallsMade := lead2.totalCallsMade + 1 }
    saveLeadUpdate db lead3

/-- Persist the record (insert or update), run the lead update, and build
the success response (lines 296-372).  The deferred 30-second recording
fetch (lines 299-318) is a fire-and-forget `setTimeout` that neither
touches request-visible state nor affects the response, and is not
modelled. -/
def finishCallEvent (db : DB) (now : Nat) (r : CallLogDoc) (isNew : Bool) :
    WebResp × DB :=
  match (if isNew then insertCallLog db r else saveCallLogUpdate db r) with
  | .error e => (catchResp e, db)
  | .ok db1 =>
    match updateLeadAfterCall db1 now r with
    | .error e => (catchResp e, db1)
    | .ok db2 =>
      ({ status := 200
         success := true
         message := "Webhook processed successfully"
         callLogId := some r.id
         direction := some r.callDirection
         virtualNumber := r.virtualNumber
         leadId := some r.leadId }, db2)

/-- The creation path of `handleCallEvents` (lines 162-229 followed by the
shared tail). -/
def createPathCallEvent (db : DB) (now : Nat) (p : Payload) (inb : Bool)
    (virtualNum : Option String) (callId : String) (phone : Option String)
    (assigned0 : Option UserDoc) : WebResp × DB :=
  match resolveLeadForCreate db inb phone assigned0 with
  | .error e => (catchResp e, db)
  | .ok none =>
    ({ status := 200
       success := true
       message := "Webhook received but no matching lead"
       action := some "ignored" }, db)
  | .ok (some (lead, db1)) =>
    let assigned := completeAssignedUser db1 inb lead assigned0
    let rec0 := newCallLogDoc db1 now p inb virtualNum callId lead assigned
    -- `if (lead.createdBy === null && assignedUser)` (lines 226-229)
    match (if lead.createdBy.isNone && assigned.isSome then
             saveLeadUpdate db1 { lead with createdBy := assigned.map (·.id) }
           else .ok db1) with
    | .error e => (catchResp e, db1)
    | .ok db2 => finishCallEvent db2 now (applyCommonFields p now rec0) true

/-- The condition under which the signature check rejects the request with
a 401 (lines 48-58): a configured outbound secret, a signature header
present, verification failed, and `NODE_ENV === 'production'` (any other
combination only logs and continues). -/
def gateRejectsOutbound (env : Env) (signature : Option String)
    (p : Payload) : Bool :=
  env.outboundSecret.isSome && signature.isSome &&
    !verifyOutboundWebhookSignature env signature p && env.production

/-- `handleCallEvents` (SmartfloWebhookController.js lines 24-381):
signature gate, direction/identity resolution, record lookup, creation or
merge, persistence, lead update, response.  Any error thrown along the way
is caught and turned into `catchResp` (status 200) with whatever partial
state had been written by then; the only non-200 response is the 401 for
an invalid signature under `NODE_ENV === 'production'`. -/
def handleCallEvents (env : Env) (db : DB) (now : Nat)
    (signature : Option String) (p : Payload) : WebResp × DB :=
  if gateRejectsOutbound env signature p then
    ({ status := 401, success := false
       message := "Invalid outbound webhook signature" }, db)
  else
    let inb := isInboundPayload p
    let virtualNum := virtualNumOf p
    let callId := callIdOf p now
    let found := lookupCallLog db callId p.custom_identifier
    let phone := phoneToMatchOf p inb
    match resolveAssignedUser db p inb with
    | .error e => (catchResp e, db)
    | .ok assigned0 =>
      match found with
      | some r0 =>
        finishCallEvent db now
          (applyCommonFields p now (updateFoundFields p inb virtualNum r0))
          false
      | none =>
        createPathCallEvent db now p inb virtualNum callId phone assigned0

/-- `handleInboundCall` (lines 393-555).  Note the unknown-caller lead is
constructed with `createdBy: null` (line 465), which the `Entry` schema's
`required` validator rejects at `save()`, and the agent fallback chain
differs from `handleCallEvents`: when the lead has a creator the admin
fallback is not consulted. -/
def handleInboundCall (env : Env) (db : DB) (now : Nat)
    (signature : Option String) (p : Payload) : WebResp × DB :=
  if env.inboundSecret.isSome && signature.isSome &&
      !verifyInboundWebhookSignature env signature p && env.production then
    ({ status := 401, success := false
       message := "Invalid inbound webhook signature" }, db)
  else
    let virtualNum := jsOr p.virtual_number p.called_number
    let callerNum := p.caller_number
    match (match findLeadByMobile db callerNum with
           | some l => Except.ok (l, db, false)
           | none =>
             let newLead : LeadDoc :=
               { id := "lead_" ++ toString db.nextLeadNum
                 customerName :=
                   some ("Incoming Caller " ++ callerNum.getD "undefined")
                 mobileNumber := callerNum
                 status := "Not Found"
                 organization := some "Unknown"
                 category := some "Incoming Call"
                 address := some "Unknown"
                 state := some "Unknown"
                 city := some "Unknown"
                 source := some "INCOMING_CALL"
                 createdBy := none }
             match insertLead db newLead with
             | .ok db1 => Except.ok (newLead, db1, true)
             | .error e => Except.error e) with
    | .error e => (catchResp e, db)
    | .ok (lead, db1, isNewLead) =>
      let a0 :=
        match p.agent_number with
        | some an => findUserByAgentNumber db1 an
        | none => none
      let a1 :=
        match a0 with
        | some u => some u
        | none =>
          match lead.createdBy with
          | some cb => findUserByIdVal db1 cb
          | none => findFirstAdmin db1
      let lead2 :=
        if isNewLead && a1.isSome then
          { lead with createdBy := a1.map (·.id) }
        else lead
      match (if isNewLead && a1.isSome then saveLeadUpdate db1 lead2
             else .ok db1) with
      | .error e => (catchResp e, db1)
      | .ok db2 =>
        let callLog : CallLogDoc :=
          { id := db2.nextCallLogId
            leadId := lead2.id
            userId := a1.map (·.id)
            agentNumber := jsOr p.agent_number virtualNum
            destinationNumber := callerNum
            callerId := callerNum
            virtualNumber := virtualNum
            providerCallId := p.call_id
            callStatus := mapSmartfloStatus p.call_status
            callDirection := "inbound"
            queueId := p.queue_id
            queueWaitTime := p.queue_wait_time.getD 0
            assignedAt := some (.ofNow now)
            routingReason := if p.queue_id.isSome then "queue" else "direct"
            startTime := some (match p.start_time with
              | some s => .ofString s
              | none => .ofNow now)
            source := "WEBHOOK"
            webhookData := p }
        match insertCallLog db2 callLog with
        | .error e => (catchResp e, db2)
        | .ok db3 =>
          let lead3 := { lead2 with
            lastCallDate := some (.ofNow now)
            lastCallStatus := some (.s "inbound_call")
            totalInboundCalls := lead2.totalInboundCalls + 1 }
          match saveLeadUpdate db3 lead3 with
          | .error e => (catchResp e, db3)
          | .ok db4 =>
            ({ status := 200
               success := true
               message := "Inbound call logged successfully"
               callLogId := some callLog.id
               virtualNumber := virtualNum
               leadId := some lead2.id }, db4)

/-! ## Derived predicates used in the claim statements -/

/-- At most one stored CallLog per distinct provider call id (the unique
sparse index of `CallLogSchema.providerCallId`). -/
def uniqueProviderIds (l : List CallLogDoc) : Prop :=
  ∀ cid : String, l.countP (fun r => r.providerCallId == some cid) ≤ 1

/-- Well-formedness of a database state: provider call ids unique, document
ids distinct and below the id counter, and every stored record valid (all
are preserved by the handlers and hold of any state reachable from an
empty store). -/
def WFdb (db : DB) : Prop :=
  uniqueProviderIds db.callLogs ∧
  (db.callLogs.map (·.id)).Nodup ∧
  (∀ r ∈ db.callLogs, validCallLogDoc r = true) ∧
  (∀ r ∈ db.callLogs, r.id < db.nextCallLogId)

/-- A payload whose `transfer_data`, when present, carries a `time` field —
otherwise the merge stamps `new Date()` and replays are not
byte-identical. -/
def transferTimeOk (p : Payload) : Prop :=
  ∀ td, p.transfer_data = some td → td.time.isSome

/-- One webhook delivery to either endpoint. -/
inductive Delivery where
  | callEvents (now : Nat) (signature : Option String) (p : Payload)
  | inboundCall (now : Nat) (signature : Option String) (p : Payload)

/-- Apply one delivery to the store. -/
def applyDelivery (env : Env) (db : DB) : Delivery → DB
  | .callEvents now sig p => (handleCallEvents env db now sig p).2
  | .inboundCall now sig p => (handleInboundCall env db now sig p).2

/-- Apply a sequence of deliveries. -/
def applyDeliveries (env : Env) (db : DB) (ds : List Delivery) : DB :=
  ds.foldl (applyDelivery env) db

/-- Replay the same payload (same signature header) at a sequence of clock
readings. -/
def replayCallEvents (env : Env) (sig : Option String) (p : Payload)
    (db : DB) (nows : List Nat) : DB :=
  nows.foldl (fun s t => (handleCallEvents env s t sig p).2) db

/-- The sixteen lowercase hex digit characters. -/
def lowerHexChars : List Char :=
  ['a', 'b', 'c', 'd', 'e', 'f',
   '0', '1', '2', '3', '4', '5', '6', '7', '8', '9']

/-- All-lowercase hex string (the output format of Node's
`createHmac(...).digest('hex')`). -/
abbrev IsLowerHexStr (s : String) : Prop :=
  ∀ c ∈ s.data, c ∈ lowerHexChars

/-- The complete update applied to a found record by one `handleCallEvents`
delivery of `p` at clock `now`. -/
def updFull (p : Payload) (now : Nat) (r : CallLogDoc) : CallLogDoc :=
  applyCommonFields p now
    (updateFoundFields p (isInboundPayload p) (virtualNumOf p) r)

/-- A record that has fully absorbed payload `p`: every field the merge
writes already holds the value the merge would write, so a replay of `p`
maps the record to itself. -/
def Absorbed (p : Payload) (r : CallLogDoc) : Prop :=
  r.callStatus = mapSmartfloStatus (jsOr p.call_status p.event_type) ∧
  (∀ s, p.start_time = some s → r.startTime = some (.ofString s)) ∧
  (∀ s, p.end_time = some s → r.endTime = some (.ofString s)) ∧
  (∀ d, p.duration = some d → r.duration = d) ∧
  (∀ u, p.recording_url = some u → r.recordingUrl = some u) ∧
  (∀ d, p.disposition = some d → r.disposition = some d) ∧
  (∀ td, p.transfer_data = some td →
    ∀ n, r.transferData = some (transferRecOf td n)) ∧
  (∀ iv, p.ivr_data = some iv → r.ivrData = some (ivrRecOf iv)) ∧
  mergePayload r.webhookData p = r.webhookData ∧
  ((virtualNumOf p).isSome → r.virtualNumber.isSome) ∧
  (p.queue_id.isSome → r.queueId.isSome) ∧
  (isInboundPayload p = true → r.callDirection = "inbound")

/-- State in which one further delivery of `(sig, p)` cannot change the
CallLog collection: either the signature gate rejects, or agent resolution
throws, or every record carrying the payload's call id has already
absorbed `p` (or its merged image fails validation, so the save is
rejected deterministically). -/
def ReplayStable (env : Env) (sig : Option String) (p : Payload)
    (db : DB) : Prop :=
  gateRejectsOutbound env sig p = true ∨
  (∃ e, resolveAssignedUser db p (isInboundPayload p) = .error e) ∨
  (∀ r ∈ db.callLogs, r.providerCallId = p.call_id →
    (Absorbed p r ∨ ∀ n, validCallLogDoc (updFull p n r) = false))

/-! ## Concrete scenario data -/

/-- Placeholder crypto collaborators for scenarios where signature
verification is switched off (no secret configured). -/
def absCrypto : CryptoEnv Payload where
  hmac := fun _ _ => "aa"
  stringify := fun _ => "p"
  stringifyPretty := fun _ => "p2"
  stringifySorted := fun _ => "p3"

/-- Environment with no webhook secrets configured (verification skipped). -/
def plainEnv : Env := { crypto := absCrypto }

/-- Production environment with an outbound webhook secret configured. -/
def prodSecretEnv : Env :=
  { production := true, outboundSecret := some "s", crypto := absCrypto }

/-- An administrator user. -/
def adminUser : UserDoc := { id := "aaaaaaaaaaaaaaaaaaaaaaaa", role := "Admin" }

/-- A known lead with a ten-digit phone number, owned by the admin. -/
def leadKnown : LeadDoc :=
  { id := "leadA", mobileNumber := some "9876543210",
    createdBy := some adminUser.id }

/-- Base store: one admin, one known lead, no call logs. -/
def baseDb : DB := { users := [adminUser], leads := [leadKnown] }

/-- C3's event A: status `ringing`, no duration field. -/
def eventRinging : Payload :=
  { call_id := some "X1", call_status := some "ringing",
    virtual_number := some "8888888888",
    destination_number := some "9876543210" }

/-- C3's event B: status `completed`, `duration = 42`. -/
def eventCompleted : Payload :=
  { call_id := some "X1", call_status := some "completed",
    duration := some 42, virtual_number := some "8888888888",
    destination_number := some "9876543210" }

/-- C2's counterexample payload: no `call_id` (and no custom identifier). -/
def payloadNoCallId : Payload :=
  { call_status := some "completed", virtual_number := some "8888888888",
    destination_number := some "9876543210" }

/-- The spec's three-part correlation token `CRM_<leadId>_<timestamp>`. -/
def token3 : String := "CRM_bbbbbbbbbbbbbbbbbbbbbbbb_1699999999999"

/-- The four-part token the webhook controller's parser expects
(`CRM_leadId_userId_timestamp`, comment at line 154). -/
def token4 : String :=
  "CRM_bbbbbbbbbbbbbbbbbbbbbbbb_aaaaaaaaaaaaaaaaaaaaaaaa_1699999999999"

/-- CallLog left by a click-to-call origination, correlated by a custom
identifier token (status still `initiated`, no provider call id yet). -/
def clickToCallRecord (tok : String) : CallLogDoc :=
  { id := 0, leadId := "leadA", userId := some adminUser.id,
    agentNumber := some "1001", destinationNumber := some "9876543210",
    customIdentifier := some tok, callStatus := .s "initiated",
    callDirection := "outbound", source := "SMARTFLO" }

/-- Store for the C5 scenario, parameterised by the correlation token. -/
def clickToCallDb (tok : String) : DB :=
  { users := [adminUser], leads := [leadKnown],
    callLogs := [clickToCallRecord tok], nextCallLogId := 1 }

/-- The C5 completion webhook, parameterised by the correlation token. -/
def completionWebhook (tok : String) : Payload :=
  { call_id := some "TATA1", custom_identifier := some tok,
    call_status := some "completed", duration := some 95 }

/-- A lead whose `createdBy` points at a user that no longer exists. -/
def leadDangling : LeadDoc :=
  { id := "leadD", mobileNumber := some "9999999999",
    createdBy := some "cccccccccccccccccccccccc" }

/-- A non-admin user whose agent number does not match the C6 event. -/
def plainUser : UserDoc :=
  { id := "dddddddddddddddddddddddd", role := "Others",
    smartfloAgentNumber := some "2002" }

/-- C6 store: no admins, a lead with a dangling creator. -/
def dbNoAgents : DB := { users := [plainUser], leads := [leadDangling] }

/-- C6 event: inbound call (caller id + called number, no custom
identifier), no agent number. -/
def inboundNoAgentEvent : Payload :=
  { call_id := some "IN1", caller_id := some "9999999999",
    called_number := some "8888888888", call_status := some "answered" }

/-- Initial cache contents for the C8 counterexample: an entries key tagged
with user 42, a call-history key, and two unrelated keys. -/
def cacheKeys42 : NodeCacheState :=
  [("entries_42_p1", 1), ("call_history_7", 2), ("other_key", 3),
   ("entries_7_p1", 4)]

/-- Concrete crypto for the C7 counterexample (any concrete instance
suffices to refute the universally quantified claim). -/
def cexCrypto : CryptoEnv Payload where
  hmac := fun sec m => if sec == "topsecret" && m == "p" then "ab12cd34" else "9999ffff"
  stringify := fun _ => "p"
  stringifyPretty := fun _ => "p2"
  stringifySorted := fun _ => "p3"

/-- A 64-character lowercase hex digest (for the C7 witness). -/
def digest64 : String :=
  "0123456789abcdef0123456789abcdef0123456789abcdef0123456789abcdef"

/-- A different 64-character lowercase hex digest (wrong-secret HMAC). -/
def otherDigest64 : String :=
  "fedcba9876543210fedcba9876543210fedcba9876543210fedcba9876543210"

/-- Concrete crypto for the C7 witness: realistic 64-hex digests, keyed by
secret. -/
def witCrypto : CryptoEnv Payload where
  hmac := fun sec _ => if sec == "k1" then digest64 else otherDigest64
  stringify := fun _ => "p"
  stringifyPretty := fun _ => "p2"
  stringifySorted := fun _ => "p3"

/-- Cache primitives that throw on every call (for the C10 witness). -/
def failingOps : CacheOps Unit where
  set := fun _ _ _ _ => (.error "set failed", ())
  get := fun _ _ => (.error "get failed", ())
  del := fun _ _ => (.error "del failed", ())
  keysOp := fun _ => (.error "keys failed", ())
  flushAll := fun _ => (.error "flush failed", ())

/-! # Helper lemmas -/

theorem lookup_mem_snd {α β : Type} [BEq α] (l : List (α × β)) (k : α)
    (v : β) (h : l.lookup k = some v) : v ∈ l.map Prod.snd := by
  induction l with
  | nil => simp [List.lookup] at h
  | cons hd tl ih =>
    rw [List.lookup] at h
    by_cases hk : k == hd.1
    · simp [hk] at h
      simp [h]
    · simp [hk] at h
      exact List.mem_cons_of_mem _ (ih h)

/-! # Claim C9 — status normalizer -/

/-- C9 counterexample: the claim says the normalizer returns a member of
the canonical enum for *every* string input, but `statusMap` is a plain
object literal, so `mapSmartfloStatus "Constructor"` evaluates
`statusMap["constructor"] || "initiated"` to the inherited
`Object.prototype.constructor` (truthy, not a string) and returns it. -/
theorem c9_counterexample :
    mapSmartfloStatus (some "Constructor") = .protoMember "constructor" ∧
    mapSmartfloStatus (some "Constructor") ∉ callStatusEnum.map SfStatus.s := by
  decide

/-- C9 (amended): for every string whose lower-casing is not an
`Object.prototype` property name, `mapSmartfloStatus` is total into the
canonical enum, case-insensitive, and defaults unrecognized input to
`"initiated"` without failing. -/
theorem c9_theorem (s : String) (h : strToLower s ∉ objectProtoKeys) :
    mapSmartfloStatus (some s) ∈ callStatusEnum.map SfStatus.s ∧
    (∀ t, strToLower s = strToLower t →
      mapSmartfloStatus (some s) = mapSmartfloStatus (some t)) ∧
    (statusMap.lookup (strToLower s) = none →
      mapSmartfloStatus (some s) = .s "initiated") := by
  refine ⟨?_, ?_, ?_⟩
  · show mapSmartfloStatus (some s) ∈ callStatusEnum.map SfStatus.s
    rw [mapSmartfloStatus]
    cases hl : statusMapRead (strToLower s) with
    | none => simp; decide
    | some v =>
      rw [statusMapRead] at hl
      cases hlk : statusMap.lookup (strToLower s) with
      | none =>
        rw [hlk] at hl
        simp [h] at hl
      | some w =>
        rw [hlk] at hl
        simp at hl
        have hw := lookup_mem_snd _ _ _ hlk
        have hmem : callStatusEnum.contains w = true ∧ w ≠ "" := by
          fin_cases hw <;> exact ⟨by decide, by decide⟩
        have hwmem : w ∈ callStatusEnum := by simpa using hmem.1
        subst hl
        simp [sfTruthy, hmem.2]
        exact hwmem
  · intro t ht
    rw [mapSmartfloStatus, mapSmartfloStatus, ht]
  · intro hl
    rw [mapSmartfloStatus, statusMapRead, hl]
    simp [h]

/-- C9 witness: the theorem applied at the spec's own example input. -/
theorem c9_witness :
    mapSmartfloStatus (some "xyz_unexpected") = .s "initiated" :=
  ( c9_theorem "xyz_unexpected" (by decide)).2.2 (by decide)

/-! # Claim C3 — order tolerance -/

/-- C3 counterexample: after B (`completed`, duration 42) then A
(`ringing`, no duration), the final status is `"ringing"`, not
`"completed"` — `status` is last-write-wins, so the two orders do not
agree on the final status as the claim asserts. -/
theorem c3_counterexample :
    ((handleCallEvents plainEnv
        ((handleCallEvents plainEnv baseDb 1000 none eventCompleted).2)
        2000 none eventRinging).2.callLogs.map fun r => r.callStatus) =
      [.s "ringing"] ∧
    SfStatus.s "ringing" ≠ SfStatus.s "completed" := by decide

/-- C3 (amended): A then B ends `completed` with duration 42; B then A
keeps duration 42 (A carries none, so it cannot erase it) but ends with
status `"ringing"`, the latest normalized value. -/
theorem c3_theorem :
    ((handleCallEvents plainEnv
        ((handleCallEvents plainEnv baseDb 1000 none eventRinging).2)
        2000 none eventCompleted).2.callLogs.map
          fun r => (r.callStatus, r.duration)) =
      [(.s "completed", 42)] ∧
    ((handleCallEvents plainEnv
        ((handleCallEvents plainEnv baseDb 1000 none eventCompleted).2)
        2000 none eventRinging).2.callLogs.map
          fun r => (r.callStatus, r.duration)) =
      [(.s "ringing", 42)] := by decide

/-! # Claim C5 — outbound click-to-call end-to-end scenario -/

/-- C5 counterexample: with the spec's three-part token
`CRM_<leadId>_<timestamp>`, the agent-resolution step splits the token and
passes its third part — the timestamp — to `User.findById`, which rejects
it as an invalid ObjectId; the whole delivery fails (`success: false`),
the record keeps status `"initiated"` (not `"completed"`), and the lead is
not advanced. -/
theorem c5_counterexample :
    (handleCallEvents plainEnv (clickToCallDb token3) 3000 none
        (completionWebhook token3)).1.success = false ∧
    ((handleCallEvents plainEnv (clickToCallDb token3) 3000 none
        (completionWebhook token3)).2.callLogs.map
          fun r => (r.callStatus, r.duration)) = [(.s "initiated", 0)] ∧
    ((handleCallEvents plainEnv (clickToCallDb token3) 3000 none
        (completionWebhook token3)).2.leads.map fun l => l.status) =
      ["Not Found"] := by decide

/-- C5 (amended): with the four-part token the parser expects
(`CRM_<leadId>_<userId>_<timestamp>`), the completion webhook with
duration 95 ends the record `completed`/95, advances the neutral
(`"Not Found"`) lead to `"Interested"` (95 > 60), and schedules no
callback. -/
theorem c5_theorem :
    ((handleCallEvents plainEnv (clickToCallDb token4) 3000 none
        (completionWebhook token4)).2.callLogs.map
          fun r => (r.callStatus, r.duration)) = [(.s "completed", 95)] ∧
    ((handleCallEvents plainEnv (clickToCallDb token4) 3000 none
        (completionWebhook token4)).2.leads.map
          fun l => (l.status, l.callbackScheduled)) =
      [("Interested", (none : Option JsDate))] ∧
    (handleCallEvents plainEnv (clickToCallDb token4) 3000 none
        (completionWebhook token4)).1.success = true := by decide

/-! # Claim C6 — inbound event with unresolvable agent -/

/-- C6: the claim (and the controller, which builds the record with
`userId: assignedUser ? assignedUser._id : null`) intends the event to be
recorded with a null agent, but `CallLogSchema.userId` is declared
`required: true`, so `save()` raises a validation error: the delivery
reports `success: false` and *no* record is stored. -/
theorem c6_theorem :
    isInboundPayload inboundNoAgentEvent = true ∧
    (handleCallEvents plainEnv dbNoAgents 5000 none
        inboundNoAgentEvent).1.success = false ∧
    (handleCallEvents plainEnv dbNoAgents 5000 none
        inboundNoAgentEvent).1.status = 200 ∧
    (handleCallEvents plainEnv dbNoAgents 5000 none
        inboundNoAgentEvent).2.callLogs = [] := by decide

/-! # Claim C2 — idempotence (counterexample part) -/

/-- C2 counterexample: a payload with no `call_id` gets a fresh
`WEBHOOK_<Date.now()>` identifier on every delivery, so replaying the
identical payload twice (at clock readings 1000 and 2000) yields two
CallRecords, not one. -/
theorem c2_counterexample :
    ((handleCallEvents plainEnv
        ((handleCallEvents plainEnv baseDb 1000 none payloadNoCallId).2)
        2000 none payloadNoCallId).2.callLogs.map
          fun r => r.providerCallId) =
      [some "WEBHOOK_1000", some "WEBHOOK_2000"] ∧
    ((handleCallEvents plainEnv
        ((handleCallEvents plainEnv baseDb 1000 none payloadNoCallId).2)
        2000 none payloadNoCallId).2.callLogs.length = 2) := by decide

/-! # Claim C8 — cache scoping (counterexample part) -/

/-- C8 counterexample: `smartInvalidate('calls', "42")` also builds the
pattern `*_42_*`, whose unanchored regex matches the `entries_42_p1` key,
so an entries-domain key tagged with the same user is deleted — not left
untouched as the claim asserts. -/
theorem c8_counterexample :
    (smartInvalidate nodeCacheOps "calls" (some "42") cacheKeys42).2 =
      [("other_key", 3), ("entries_7_p1", 4)] ∧
    globTest "entries_*" "entries_42_p1" = true ∧
    "entries_42_p1" ∈ cacheKeys42.map Prod.fst ∧
    "entries_42_p1" ∉
      ((smartInvalidate nodeCacheOps "calls" (some "42")
          cacheKeys42).2.map Prod.fst) := by decide

/-! # Claim C7 — signature verifier -/

theorem isLowerHex_strTake {s : String} (k : Nat) (h : IsLowerHexStr s) :
    IsLowerHexStr (strTake s k) := by
  intro c hc
  exact h c (List.mem_of_mem_take (by simpa [strTake] using hc))

theorem lowerHex_startsWith_sha256_false {s : String} (h : IsLowerHexStr s)
    (hpos : 0 < strLen s) : jsStartsWith s "sha256=" = false := by
  unfold jsStartsWith
  cases hs : s.data with
  | nil => simp [strLen, hs] at hpos
  | cons c rest =>
    have hc : c ∈ lowerHexChars := h c (hs ▸ List.mem_cons_self _ _)
    have hsc : ('s' == c) = false := by fin_cases hc <;> decide
    show List.isPrefixOf "sha256=".data (c :: rest) = false
    rw [show "sha256=".data = 's' :: "ha256=".data from rfl]
    rw [List.isPrefixOf]
    simp [hsc]

theorem hexDigitVal_lower {c : Char} (h : c ∈ lowerHexChars) :
    (hexDigitVal c).isSome = true ∧ (hexDigitVal c).getD 0 < 16 := by
  fin_cases h <;> exact ⟨by decide, by decide⟩

theorem hexDigitVal_inj_lower {c d : Char} (hc : c ∈ lowerHexChars)
    (hd : d ∈ lowerHexChars) : hexDigitVal c = hexDigitVal d → c = d := by
  fin_cases hc <;> fin_cases hd <;> decide

theorem hexDecode_inj (n : Nat) : ∀ (a b : List Char),
    a.length ≤ n →
    (∀ c ∈ a, c ∈ lowerHexChars) → (∀ c ∈ b, c ∈ lowerHexChars) →
    a.length = b.length → a.length % 2 = 0 →
    hexDecodeJs a = hexDecodeJs b → a = b := by
  induction n with
  | zero =>
    intro a b hle _ _ hlen _ _
    have ha : a = [] := List.eq_nil_of_length_eq_zero (Nat.le_zero.mp hle)
    have hb : b = [] := List.eq_nil_of_length_eq_zero
      (by rw [← hlen]; exact Nat.le_zero.mp (ha ▸ hle))
    rw [ha, hb]
  | succ n ih =>
    intro a b hle ha hb hlen heven hdec
    match a, b with
    | [], [] => rfl
    | [], d :: ds => simp at hlen
    | c :: cs, [] => simp at hlen
    | [c], b => rw [show [c].length = 1 from rfl] at heven; simp at heven
    | c1 :: c2 :: cr, [d] => simp at hlen
    | c1 :: c2 :: cr, d1 :: d2 :: dr =>
      have hc1 := ha c1 (by simp)
      have hc2 := ha c2 (by simp)
      have hd1 := hb d1 (by simp)
      have hd2 := hb d2 (by simp)
      obtain ⟨v1, hv1⟩ := Option.isSome_iff_exists.mp (hexDigitVal_lower hc1).1
      obtain ⟨v2, hv2⟩ := Option.isSome_iff_exists.mp (hexDigitVal_lower hc2).1
      obtain ⟨w1, hw1⟩ := Option.isSome_iff_exists.mp (hexDigitVal_lower hd1).1
      obtain ⟨w2, hw2⟩ := Option.isSome_iff_exists.mp (hexDigitVal_lower hd2).1
      rw [hexDecodeJs, hexDecodeJs, hv1, hv2, hw1, hw2] at hdec
      simp only [List.cons.injEq] at hdec
      have bv1 : v1 < 16 := by
        have := (hexDigitVal_lower hc1).2; rwa [hv1] at this
      have bv2 : v2 < 16 := by
        have := (hexDigitVal_lower hc2).2; rwa [hv2] at this
      have bw1 : w1 < 16 := by
        have := (hexDigitVal_lower hd1).2; rwa [hw1] at this
      have bw2 : w2 < 16 := by
        have := (hexDigitVal_lower hd2).2; rwa [hw2] at this
      have hv : v1 = w1 ∧ v2 = w2 := by omega
      have e1 : c1 = d1 :=
        hexDigitVal_inj_lower hc1 hd1 (by rw [hv1, hw1, hv.1])
      have e2 : c2 = d2 :=
        hexDigitVal_inj_lower hc2 hd2 (by rw [hv2, hw2, hv.2])
      have etail : cr = dr := by
        refine ih cr dr ?_ ?_ ?_ ?_ ?_ hdec.2
        · have : cr.length + 2 ≤ n + 1 := by simpa using hle
          omega
        · intro c hcm; exact ha c (by simp [hcm])
        · intro c hcm; exact hb c (by simp [hcm])
        · have : cr.length + 2 = dr.length + 2 := by simpa using hlen
          omega
        · have : (cr.length + 1 + 1) % 2 = 0 := by simpa using heven
          omega
      rw [e1, e2, etail]

theorem timingSafeEqualHex_self (s : String) :
    timingSafeEqualHex s s = true := by
  simp [timingSafeEqualHex]

theorem timingSafeEqualHex_of_ne {a b : String} (ha : IsLowerHexStr a)
    (hb : IsLowerHexStr b) (hlen : strLen a = strLen b)
    (heven : strLen a % 2 = 0) (hne : a ≠ b) :
    timingSafeEqualHex a b = false := by
  unfold timingSafeEqualHex
  by_cases hdec : hexDecodeJs a.data = hexDecodeJs b.data
  · exact absurd
      (String.ext (hexDecode_inj a.data.length a.data b.data (Nat.le_refl _)
        ha hb hlen heven hdec)) hne
  · have : (hexDecodeJs a.data == hexDecodeJs b.data) = false :=
      beq_eq_false_iff_ne.mpr hdec
    simp [this]

theorem isPrefixOf_append_self (l m : List Char) :
    l.isPrefixOf (l ++ m) = true := by
  induction l with
  | nil => cases m <;> rfl
  | cons a as ih => simpa [List.isPrefixOf] using ih

theorem strDrop_sha256_append (s : String) :
    strDrop ("sha256=" ++ s) 7 = s := by
  unfold strDrop
  rw [show ("sha256=" ++ s).data = "sha256=".data ++ s.data from rfl]
  rw [show (7 : Nat) = "sha256=".data.length from rfl, List.drop_left]

theorem strLen_strTake (s : String) (k : Nat) :
    strLen (strTake s k) = min k (strLen s) := by
  simp [strLen, strTake]

/-- C7 counterexample: the empty signature is shorter than the computed
hash and (vacuously) equal to a prefix of it, yet the verifier rejects it:
the falsy-signature guard `if (!signature) return false` fires before the
truncated comparison.  (A falsy signature argument is modelled as
`none`.) -/
theorem c7_counterexample :
    strLen "" < strLen (cexCrypto.hmac "topsecret"
      (cexCrypto.stringify ({} : Payload))) ∧
    jsStartsWith (cexCrypto.hmac "topsecret"
      (cexCrypto.stringify ({} : Payload))) "" = true ∧
    verifySignatureWith cexCrypto (some "topsecret") none
      ({} : Payload) = false := by decide

/-- C7 (amended): for every payload, configured secret and HMAC whose
digest is 64-character lowercase hex, the verifier accepts the correct
digest with and without the `sha256=` prefix, accepts every *non-empty*
truncation of the digest, and rejects a digest computed with a different
secret (whenever the two digests differ, as they do for a non-colliding
HMAC). -/
theorem c7_theorem {π : Type} (c : CryptoEnv π) (secret wrongSecret : String)
    (payload : π)
    (hhex : IsLowerHexStr (c.hmac secret (c.stringify payload)))
    (hlen : strLen (c.hmac secret (c.stringify payload)) = 64) :
    verifySignatureWith c (some secret)
      (some (c.hmac secret (c.stringify payload))) payload = true ∧
    verifySignatureWith c (some secret)
      (some ("sha256=" ++ c.hmac secret (c.stringify payload)))
      payload = true ∧
    (∀ k, 0 < k → k < 64 →
      verifySignatureWith c (some secret)
        (some (strTake (c.hmac secret (c.stringify payload)) k))
        payload = true) ∧
    (IsLowerHexStr (c.hmac wrongSecret (c.stringify payload)) →
      strLen (c.hmac wrongSecret (c.stringify payload)) = 64 →
      c.hmac wrongSecret (c.stringify payload) ≠
        c.hmac secret (c.stringify payload) →
      verifySignatureWith c (some secret)
        (some (c.hmac wrongSecret (c.stringify payload))) payload = false) := by
  have hpos : 0 < strLen (c.hmac secret (c.stringify payload)) := by omega
  have hsw := lowerHex_startsWith_sha256_false hhex hpos
  refine ⟨?_, ?_, ?_, ?_⟩
  · simp [verifySignatureWith, hsw, timingSafeEqualHex_self]
  · have hpre : jsStartsWith
        ("sha256=" ++ c.hmac secret (c.stringify payload)) "sha256=" = true := by
      unfold jsStartsWith
      rw [show ("sha256=" ++ c.hmac secret (c.stringify payload)).data =
        "sha256=".data ++ (c.hmac secret (c.stringify payload)).data from rfl]
      exact isPrefixOf_append_self _ _
    simp [verifySignatureWith, hpre, strDrop_sha256_append,
      timingSafeEqualHex_self]
  · intro k hk0 hk64
    have htkLen : strLen (strTake (c.hmac secret (c.stringify payload)) k) = k := by
      rw [strLen_strTake, hlen]
      omega
    have hswt := lowerHex_startsWith_sha256_false
      (isLowerHex_strTake k hhex) (by omega)
    simp only [verifySignatureWith, hswt, Bool.false_eq_true, if_false,
      htkLen, hlen]
    have hne : ¬ (k = 64) := by omega
    simp [hne, hk64]
  · intro hw hwlen hne
    have hws := lowerHex_startsWith_sha256_false hw (by omega)
    have hts := timingSafeEqualHex_of_ne hw hhex (by omega)
      (by rw [hwlen]) hne
    simp [verifySignatureWith, hws, hwlen, hlen, hts]

/-- C7 witness: the amended theorem applied to a concrete 64-hex
digest pair. -/
theorem c7_witness :
    verifySignatureWith witCrypto (some "k1") (some digest64)
      ({} : Payload) = true ∧
    verifySignatureWith witCrypto (some "k1") (some ("sha256=" ++ digest64))
      ({} : Payload) = true ∧
    verifySignatureWith witCrypto (some "k1") (some (strTake digest64 20))
      ({} : Payload) = true ∧
    verifySignatureWith witCrypto (some "k1") (some otherDigest64)
      ({} : Payload) = false := by
  have h := c7_theorem witCrypto "k1" "k2" ({} : Payload)
    (by decide) (by decide)
  exact ⟨h.1, h.2.1, h.2.2.1 20 (by decide) (by decide),
    h.2.2.2 (by decide) (by decide) (by decide)⟩

/-! # Claim C10 — cache wrappers never leak exceptions -/

/-- C10: each cache-middleware wrapper catches an exception from the
underlying store and returns its benign default — `false` for `setcache`,
`null` for `getCachedData`, `0` for `deleteCache`, `false` for
`smartInvalidate`. -/
theorem c10_theorem {σ : Type} (ops : CacheOps σ) (key : String) (v : Int)
    (ttl : Nat) (st₁ st₂ st₃ st₄ d₁ d₂ d₃ d₄ : σ)
    (e₁ e₂ e₃ e₄ : String) (uid : Option String)
    (h₁ : ops.set key v ttl st₁ = (.error e₁, d₁))
    (h₂ : ops.get key st₂ = (.error e₂, d₂))
    (h₃ : ops.del key st₃ = (.error e₃, d₃))
    (h₄ : ops.keysOp st₄ = (.error e₄, d₄)) :
    (setcache ops key v ttl st₁).1 = false ∧
    (getCachedData ops key st₂).1 = none ∧
    (deleteCache ops key st₃).1 = 0 ∧
    (smartInvalidate ops "calls" uid st₄).1 = false := by
  refine ⟨?_, ?_, ?_, ?_⟩
  · simp [setcache, h₁]
  · simp [getCachedData, h₂]
  · simp [deleteCache, h₃]
  · have hpat : smartInvalidatePatterns "calls" uid =
      "call_history_*" :: "call_stats_*" :: "call_details_*" ::
        (match uid with
         | some u => ["*_" ++ u ++ "_*"]
         | none => []) := rfl
    have hne : ("calls" : String) ≠ "all" := by decide
    unfold smartInvalidate
    rw [if_neg hne, hpat, deletePatterns, deleteOnePattern, h₄]

/-- C10 witness: the theorem at a concrete always-throwing store. -/
theorem c10_witness :
    (setcache failingOps "k" 1 60 ()).1 = false ∧
    (getCachedData failingOps "k" ()).1 = none ∧
    (deleteCache failingOps "k" ()).1 = 0 ∧
    (smartInvalidate failingOps "calls" (some "42") ()).1 = false :=
  c10_theorem failingOps "k" 1 60 () () () () () () () ()
    "set failed" "get failed" "del failed" "keys failed" (some "42")
    rfl rfl rfl rfl

/-! # Claim C8 — smartInvalidate('calls', uid) (amended part) -/

theorem contains_iff_mem {α : Type} [BEq α] [LawfulBEq α] (l : List α)
    (a : α) : l.contains a = true ↔ a ∈ l := by
  induction l with
  | nil => simp
  | cons b bs ih => simp [List.contains_cons, ih, List.mem_cons]

theorem deleteKeysList_node (K : List String) (st : NodeCacheState) :
    deleteKeysList nodeCacheOps K st =
      (.ok (), st.filter fun kv => !(K.contains kv.1)) := by
  induction K generalizing st with
  | nil => simp [deleteKeysList]
  | cons k K ih =>
    show deleteKeysList nodeCacheOps K (st.filter fun kv => kv.1 != k) = _
    rw [ih]
    congr 1
    rw [List.filter_filter]
    apply List.filter_congr
    intro kv _
    rw [List.contains_cons]
    cases h1 : kv.1 == k <;> cases h2 : K.contains kv.1 <;>
      simp [bne, h1, h2]

theorem deleteOnePattern_node (pat : String) (st : NodeCacheState) :
    deleteOnePattern nodeCacheOps pat st =
      (.ok (), st.filter fun kv => !(globTest pat kv.1)) := by
  show deleteKeysList nodeCacheOps
    ((st.map Prod.fst).filter fun k => globTest pat k) st = _
  rw [deleteKeysList_node]
  congr 1
  apply List.filter_congr
  intro kv hm
  congr 1
  cases hg : globTest pat kv.1
  · apply Bool.eq_false_iff.mpr
    intro hcon
    have := (contains_iff_mem _ _).mp hcon
    rw [List.mem_filter] at this
    rw [this.2] at hg
    cases hg
  · apply (contains_iff_mem _ _).mpr
    rw [List.mem_filter]
    exact ⟨List.mem_map_of_mem _ hm, hg⟩

/-- C8 (amended): `smartInvalidate('calls', uid)` returns `true` and
deletes exactly the keys matching one of `call_history_*`, `call_stats_*`,
`call_details_*` or the user-scoped pattern `*_<uid>_*`; every other key
survives.  (In particular `entries_*` keys *not* containing `_<uid>_` are
untouched, but — as the counterexample shows — entries keys tagged with
the same user are deleted by the fourth pattern.) -/
theorem deletePatterns_node (ps : List String) (st : NodeCacheState) :
    deletePatterns nodeCacheOps ps st =
      (.ok (), ps.foldl
        (fun s pat => s.filter fun kv => !(globTest pat kv.1)) st) := by
  induction ps generalizing st with
  | nil => rfl
  | cons p ps ih =>
    rw [deletePatterns, deleteOnePattern_node]
    exact ih _

/-- C8 (amended): `smartInvalidate('calls', uid)` returns `true` and
deletes exactly the keys matching one of `call_history_*`, `call_stats_*`,
`call_details_*` or the user-scoped pattern `*_<uid>_*`; every other key
survives.  (In particular `entries_*` keys *not* containing `_<uid>_` are
untouched, but — as the counterexample shows — entries keys tagged with
the same user are deleted by the fourth pattern.) -/
theorem c8_theorem (st : NodeCacheState) (uid : String) :
    smartInvalidate nodeCacheOps "calls" (some uid) st =
      (true, st.filter fun kv =>
        !(globTest "call_history_*" kv.1 || globTest "call_stats_*" kv.1 ||
          globTest "call_details_*" kv.1 ||
          globTest ("*_" ++ uid ++ "_*") kv.1)) := by
  have hpat : smartInvalidatePatterns "calls" (some uid) =
    ["call_history_*", "call_stats_*", "call_details_*",
     "*_" ++ uid ++ "_*"] := rfl
  have hne : ("calls" : String) ≠ "all" := by decide
  unfold smartInvalidate
  rw [if_neg hne, hpat, deletePatterns_node]
  show (true, _) = _
  congr 1
  show ((((st.filter _).filter _).filter _).filter _) = _
  rw [List.filter_filter, List.filter_filter, List.filter_filter]
  apply List.filter_congr
  intro kv _
  cases g1 : globTest "call_history_*" kv.1 <;>
    cases g2 : globTest "call_stats_*" kv.1 <;>
    cases g3 : globTest "call_details_*" kv.1 <;>
    cases g4 : globTest ("*_" ++ uid ++ "_*") kv.1 <;>
    simp [g1, g2, g3, g4]

/-! # Claim C1 — webhook endpoint response contract -/

theorem finishCallEvent_status (db : DB) (now : Nat) (r : CallLogDoc)
    (isNew : Bool) :
    (finishCallEvent db now r isNew).1.status = 200 ∧
    ((finishCallEvent db now r isNew).1.success = false →
      (finishCallEvent db now r isNew).1.error.isSome ∧
      (finishCallEvent db now r isNew).1.message =
        "Webhook received but processing failed") := by
  unfold finishCallEvent
  split
  · simp [catchResp]
  · split
    · simp [catchResp]
    · simp

theorem createPathCallEvent_status (db : DB) (now : Nat) (p : Payload)
    (inb : Bool) (virtualNum : Option String) (callId : String)
    (phone : Option String) (assigned0 : Option UserDoc) :
    (createPathCallEvent db now p inb virtualNum callId phone
        assigned0).1.status = 200 ∧
    ((createPathCallEvent db now p inb virtualNum callId phone
        assigned0).1.success = false →
      (createPathCallEvent db now p inb virtualNum callId phone
        assigned0).1.error.isSome ∧
      (createPathCallEvent db now p inb virtualNum callId phone
        assigned0).1.message =
        "Webhook received but processing failed") := by
  unfold createPathCallEvent
  split
  · simp [catchResp]
  · simp
  · dsimp only
    split
    · simp [catchResp]
    · exact finishCallEvent_status _ _ _ _

/-- C1 counterexample: with `NODE_ENV === 'production'`, a configured
outbound secret and a signature header that fails verification, the
handler returns HTTP 401, not 200 — so "HTTP 200 always, regardless of
internal outcome" does not hold of the code. -/
theorem c1_counterexample :
    (handleCallEvents prodSecretEnv baseDb 1 (some "zz")
        eventRinging).1.status = 401 ∧ (401 : Nat) ≠ 200 := by decide

/-- C1 (amended): every response carries status 200 — and any thrown error
is caught, yielding a 200 body with `success: false` and the error
detail — except in exactly one case: production mode with a configured
outbound secret and a present-but-invalid signature, which yields 401. -/
theorem c1_theorem (env : Env) (db : DB) (now : Nat) (sig : Option String)
    (p : Payload) :
    ((handleCallEvents env db now sig p).1.status = 200 ∨
      ((handleCallEvents env db now sig p).1.status = 401 ∧
        gateRejectsOutbound env sig p = true ∧
        (handleCallEvents env db now sig p).1.success = false)) ∧
    ((handleCallEvents env db now sig p).1.success = false →
      (handleCallEvents env db now sig p).1.status = 200 →
      (handleCallEvents env db now sig p).1.error.isSome ∧
      (handleCallEvents env db now sig p).1.message =
        "Webhook received but processing failed") := by
  unfold handleCallEvents
  split
  case isTrue h =>
    refine ⟨Or.inr ⟨rfl, h, rfl⟩, ?_⟩
    intro _ hst
    simp at hst
  case isFalse h =>
    dsimp only
    split
    · exact ⟨Or.inl (by simp [catchResp]),
        fun _ _ => by simp [catchResp]⟩
    · split
      · exact ⟨Or.inl (finishCallEvent_status _ _ _ _).1,
          fun hs _ => (finishCallEvent_status _ _ _ _).2 hs⟩
      · exact ⟨Or.inl (createPathCallEvent_status _ _ _ _ _ _ _ _).1,
          fun hs _ => (createPathCallEvent_status _ _ _ _ _ _ _ _).2 hs⟩

/-- C1 witness: the amended theorem's catch clause at a concrete failing
delivery (the three-part-token scenario, whose processing throws a
CastError). -/
theorem c1_witness :
    (handleCallEvents plainEnv (clickToCallDb token3) 3000 none
        (completionWebhook token3)).1.error.isSome ∧
    (handleCallEvents plainEnv (clickToCallDb token3) 3000 none
        (completionWebhook token3)).1.message =
      "Webhook received but processing failed" :=
  (c1_theorem plainEnv (clickToCallDb token3) 3000 none
    (completionWebhook token3)).2 (by decide) (by decide)

/-! # Frame and invariant lemmas for the handlers (used by C2 and C4) -/

theorem saveLeadUpdate_frame {db : DB} {l : LeadDoc} {d : DB}
    (h : saveLeadUpdate db l = .ok d) :
    d.callLogs = db.callLogs ∧ d.nextCallLogId = db.nextCallLogId ∧
      d.users = db.users := by
  unfold saveLeadUpdate at h
  split at h
  · cases h; exact ⟨rfl, rfl, rfl⟩
  · cases h

theorem insertLead_frame {db : DB} {l : LeadDoc} {d : DB}
    (h : insertLead db l = .ok d) :
    d.callLogs = db.callLogs ∧ d.nextCallLogId = db.nextCallLogId ∧
      d.users = db.users := by
  unfold insertLead at h
  split at h
  · cases h; exact ⟨rfl, rfl, rfl⟩
  · cases h

theorem updateLeadAfterCall_frame {db : DB} {now : Nat} {r : CallLogDoc}
    {d : DB} (h : updateLeadAfterCall db now r = .ok d) :
    d.callLogs = db.callLogs ∧ d.nextCallLogId = db.nextCallLogId ∧
      d.users = db.users := by
  unfold updateLeadAfterCall at h
  split at h
  · cases h; exact ⟨rfl, rfl, rfl⟩
  · exact saveLeadUpdate_frame h

theorem createLeadForInboundCall_frame {db : DB} {ph : String}
    {a : Option UserDoc} {l : LeadDoc} {d : DB}
    (h : createLeadForInboundCall db ph a = .ok (l, d)) :
    d.callLogs = db.callLogs ∧ d.nextCallLogId = db.nextCallLogId ∧
      d.users = db.users := by
  unfold createLeadForInboundCall at h
  all_goals try dsimp only at h
  all_goals try split at h
  all_goals try dsimp only at h
  all_goals try split at h
  all_goals try dsimp only at h
  all_goals try split at h
  all_goals try dsimp only at h
  all_goals try split at h
  all_goals try dsimp only at h
  all_goals try split at h
  all_goals try dsimp only at h
  all_goals try split at h
  all_goals try cases h
  all_goals exact insertLead_frame (by assumption)

theorem resolveLeadForCreate_frame {db : DB} {inb : Bool}
    {phone : Option String} {a : Option UserDoc} {l : LeadDoc} {d : DB}
    (h : resolveLeadForCreate db inb phone a = .ok (some (l, d))) :
    d.callLogs = db.callLogs ∧ d.nextCallLogId = db.nextCallLogId ∧
      d.users = db.users := by
  unfold resolveLeadForCreate at h
  all_goals try dsimp only at h
  all_goals try split at h
  all_goals try dsimp only at h
  all_goals try split at h
  all_goals try dsimp only at h
  all_goals try split at h
  all_goals try dsimp only at h
  all_goals try split at h
  all_goals try dsimp only at h
  all_goals try split at h
  all_goals try dsimp only at h
  all_goals try split at h
  all_goals try cases h
  all_goals first
    | exact ⟨rfl, rfl, rfl⟩
    | exact createLeadForInboundCall_frame (by assumption)

theorem saveCallLogUpdate_ok {db : DB} {r : CallLogDoc} {d : DB}
    (h : saveCallLogUpdate db r = .ok d) :
    validCallLogDoc r = true ∧
    d.callLogs = db.callLogs.map (fun x => if x.id == r.id then r else x) ∧
    d.nextCallLogId = db.nextCallLogId ∧ d.users = db.users ∧
    d.leads = db.leads := by
  unfold saveCallLogUpdate at h
  split at h
  · cases h; rename_i hv; exact ⟨hv, rfl, rfl, rfl, rfl⟩
  · cases h

theorem saveCallLogUpdate_err {db : DB} {r : CallLogDoc}
    (h : validCallLogDoc r = false) :
    saveCallLogUpdate db r = .error (.validation "CallLog validation failed") := by
  unfold saveCallLogUpdate
  rw [if_neg (by rw [h]; exact Bool.false_ne_true)]

theorem insertCallLog_ok {db : DB} {r : CallLogDoc} {d : DB}
    (h : insertCallLog db r = .ok d) :
    validCallLogDoc r = true ∧
    (match r.providerCallId with
     | some cid => db.callLogs.any fun x => x.providerCallId == some cid
     | none => false) = false ∧
    d.callLogs = db.callLogs ++ [r] ∧
    d.nextCallLogId = db.nextCallLogId + 1 ∧ d.users = db.users := by
  unfold insertCallLog at h
  split at h
  · cases h
  · split at h
    · cases h
    · cases h
      rename_i hnv hdup
      exact ⟨not_not.mp hnv, Bool.eq_false_iff.mpr hdup, rfl, rfl, rfl⟩

theorem find_provider_eq {l : List CallLogDoc} {cid : String}
    {r : CallLogDoc}
    (hu : l.countP (fun x => x.providerCallId == some cid) ≤ 1)
    (hmem : r ∈ l) (hr : r.providerCallId = some cid) :
    l.find? (fun x => x.providerCallId == some cid) = some r := by
  induction l with
  | nil => cases hmem
  | cons a t ih =>
    by_cases ha : (a.providerCallId == some cid) = true
    · have hfind : (a :: t).find? (fun x => x.providerCallId == some cid) =
          some a := by
        simp [List.find?_cons, ha]
      rw [hfind]
      rcases List.mem_cons.mp hmem with h | h
      · exact congrArg some h.symm
      · exfalso
        have hpr : (fun x => x.providerCallId == some cid) r = true := by
          simp [hr]
        have h1 : 0 < t.countP (fun x => x.providerCallId == some cid) :=
          List.countP_pos_iff.mpr ⟨r, h, hpr⟩
        have hc : (a :: t).countP (fun x => x.providerCallId == some cid) =
            t.countP (fun x => x.providerCallId == some cid) + 1 := by
          simp [List.countP_cons, ha]
        omega
    · have hfind : (a :: t).find? (fun x => x.providerCallId == some cid) =
          t.find? (fun x => x.providerCallId == some cid) := by
        simp [List.find?_cons, ha]
      rw [hfind]
      have hmem' : r ∈ t := by
        rcases List.mem_cons.mp hmem with h | h
        · exfalso; rw [← h] at ha; simp [hr] at ha
        · exact h
      refine ih ?_ hmem'
      have hc : (a :: t).countP (fun x => x.providerCallId == some cid) =
          t.countP (fun x => x.providerCallId == some cid) := by
        simp [List.countP_cons, ha]
      omega

theorem two_le_countP {α : Type} {l : List α} {a b : α} {pred : α → Bool}
    (ha : a ∈ l) (hb : b ∈ l) (hne : a ≠ b) (hpa : pred a = true)
    (hpb : pred b = true) : 2 ≤ l.countP pred := by
  induction l with
  | nil => cases ha
  | cons x t ih =>
    rcases List.mem_cons.mp ha with hax | hax
    · have hbt : b ∈ t := by
        rcases List.mem_cons.mp hb with hbx | hbx
        · exact absurd (hax.trans hbx.symm) hne
        · exact hbx
      have h1 : 0 < t.countP pred := List.countP_pos_iff.mpr ⟨b, hbt, hpb⟩
      have hc : (x :: t).countP pred = t.countP pred + 1 := by
        simp [List.countP_cons, hax ▸ hpa]
      omega
    · rcases List.mem_cons.mp hb with hbx | hbx
      · have h1 : 0 < t.countP pred := List.countP_pos_iff.mpr ⟨a, hax, hpa⟩
        have hc : (x :: t).countP pred = t.countP pred + 1 := by
          simp [List.countP_cons, hbx ▸ hpb]
        omega
      · have h2 := ih hax hbx
        have hc : t.countP pred ≤ (x :: t).countP pred := by
          rw [List.countP_cons]
          exact Nat.le_add_right _ _
        omega

theorem map_replace_self {l : List CallLogDoc} {r : CallLogDoc}
    (hnd : (l.map (·.id)).Nodup) (hmem : r ∈ l) :
    l.map (fun x => if x.id == r.id then r else x) = l := by
  have hinj := List.inj_on_of_nodup_map hnd
  have : ∀ x ∈ l, (fun x => if x.id == r.id then r else x) x = x := by
    intro x hx
    by_cases hid : (x.id == r.id) = true
    · simp only [hid, if_true]
      exact (hinj hx hmem (by simpa using hid)).symm
    · simp [hid]
  calc l.map (fun x => if x.id == r.id then r else x)
      = l.map id := List.map_congr_left this
    _ = l := List.map_id l

theorem WFdb_transfer {db db' : DB} (hc : db'.callLogs = db.callLogs)
    (hn : db'.nextCallLogId = db.nextCallLogId) (h : WFdb db) : WFdb db' := by
  unfold WFdb
  rw [hc, hn]
  exact h

theorem WFdb_insert {db : DB} {r : CallLogDoc} {d : DB} (hwf : WFdb db)
    (hid : r.id = db.nextCallLogId)
    (h : insertCallLog db r = .ok d) : WFdb d := by
  obtain ⟨hv, hdup, hc, hn, _⟩ := insertCallLog_ok h
  obtain ⟨w1, w2, w3, w4⟩ := hwf
  refine ⟨?_, ?_, ?_, ?_⟩
  · intro cid
    rw [hc, List.countP_append]
    by_cases hp : (r.providerCallId == some cid) = true
    · obtain ⟨cid0, hcid0⟩ : ∃ c, r.providerCallId = some c := by
        cases hh : r.providerCallId
        · rw [hh] at hp; simp at hp
        · exact ⟨_, rfl⟩
      have hcideq : cid0 = cid := by
        rw [hcid0] at hp; simpa using hp
      subst hcideq
      rw [hcid0] at hdup
      have hzero : db.callLogs.countP
          (fun x => x.providerCallId == some cid0) = 0 := by
        rw [List.countP_eq_zero]
        intro x hx
        exact (List.any_eq_false.mp hdup) x hx
      rw [hzero]
      simp [List.countP_cons, hp]
    · have hone : List.countP (fun x => x.providerCallId == some cid) [r]
          = 0 := by
        simp [List.countP_cons, hp]
      rw [hone]
      have := w1 cid
      omega
  · rw [hc, List.map_append]
    rw [List.nodup_append]
    refine ⟨w2, List.nodup_singleton _, ?_⟩
    intro a ha
    simp only [List.map_cons, List.map_nil, List.mem_singleton]
    intro hb
    obtain ⟨x, hx, hxa⟩ := List.mem_map.mp ha
    have := w4 x hx
    rw [hb, hid] at hxa
    omega
  · intro x hx
    rw [hc] at hx
    rcases List.mem_append.mp hx with h1 | h1
    · exact w3 x h1
    · rw [List.mem_singleton.mp h1]
      exact hv
  · intro x hx
    rw [hc] at hx
    rw [hn]
    rcases List.mem_append.mp hx with h1 | h1
    · have := w4 x h1
      omega
    · rw [List.mem_singleton.mp h1, hid]
      omega

theorem WFdb_update {db : DB} {r : CallLogDoc} {d : DB} (hwf : WFdb db)
    (hpres : ∀ x ∈ db.callLogs, x.id = r.id →
      x.providerCallId = r.providerCallId)
    (h : saveCallLogUpdate db r = .ok d) : WFdb d := by
  obtain ⟨hv, hc, hn, _, _⟩ := saveCallLogUpdate_ok h
  obtain ⟨w1, w2, w3, w4⟩ := hwf
  have hids : (db.callLogs.map fun x =>
      if x.id == r.id then r else x).map (·.id) =
      db.callLogs.map (·.id) := by
    rw [List.map_map]
    apply List.map_congr_left
    intro x hx
    show (if x.id == r.id then r else x).id = x.id
    by_cases hxid : (x.id == r.id) = true
    · rw [if_pos hxid]
      exact (by simpa using hxid : x.id = r.id).symm
    · rw [if_neg hxid]
  refine ⟨?_, ?_, ?_, ?_⟩
  · intro cid
    rw [hc, List.countP_map]
    have : db.callLogs.countP
        ((fun x => x.providerCallId == some cid) ∘ fun x =>
          if x.id == r.id then r else x) =
        db.callLogs.countP (fun x => x.providerCallId == some cid) := by
      apply List.countP_congr
      intro x hx
      have hpid : (if x.id == r.id then r else x).providerCallId =
          x.providerCallId := by
        by_cases hxid : (x.id == r.id) = true
        · rw [if_pos hxid, ← hpres x hx (by simpa using hxid)]
        · rw [if_neg hxid]
      simp only [Function.comp_apply]
      rw [hpid]
    rw [this]
    exact w1 cid
  · rw [hc, hids]
    exact w2
  · intro x hx
    rw [hc] at hx
    obtain ⟨y, hy, hyx⟩ := List.mem_map.mp hx
    by_cases hyid : (y.id == r.id) = true
    · rw [if_pos hyid] at hyx
      rw [← hyx]
      exact hv
    · rw [if_neg hyid] at hyx
      rw [← hyx]
      exact w3 y hy
  · intro x hx
    rw [hc] at hx
    rw [hn]
    obtain ⟨y, hy, hyx⟩ := List.mem_map.mp hx
    have hxy : x.id = y.id := by
      rw [← hyx]
      by_cases hyid : (y.id == r.id) = true
      · rw [if_pos hyid]
        exact ((by simpa using hyid : y.id = r.id)).symm
      · rw [if_neg hyid]
    rw [hxy]
    exact w4 y hy

theorem lookupCallLog_mem {db : DB} {callId : String} {ci : Option String}
    {r : CallLogDoc} (h : lookupCallLog db callId ci = some r) :
    r ∈ db.callLogs := by
  unfold lookupCallLog at h
  split at h
  · cases h
    exact List.mem_of_find?_eq_some (by assumption)
  · split at h
    · exact List.mem_of_find?_eq_some h
    · cases h

theorem finishCallEvent_WF (db : DB) (now : Nat) (r : CallLogDoc)
    (isNew : Bool) (hwf : WFdb db)
    (hNew : isNew = true → r.id = db.nextCallLogId)
    (hOld : isNew = false → ∀ x ∈ db.callLogs, x.id = r.id →
      x.providerCallId = r.providerCallId) :
    WFdb (finishCallEvent db now r isNew).2 := by
  unfold finishCallEvent
  split
  · exact hwf
  · rename_i db1 heq
    have hwf1 : WFdb db1 := by
      cases isNew
      · simp only [Bool.false_eq_true, if_false] at heq
        exact WFdb_update hwf (hOld rfl) heq
      · simp only [if_true] at heq
        exact WFdb_insert hwf (hNew rfl) heq
    split
    · exact hwf1
    · rename_i db2 heq2
      exact WFdb_transfer (updateLeadAfterCall_frame heq2).1
        (updateLeadAfterCall_frame heq2).2.1 hwf1

theorem leadFix_frame {db : DB} {c : Bool} {l : LeadDoc} {d : DB}
    (h : (if c then saveLeadUpdate db l else .ok db) = .ok d) :
    d.callLogs = db.callLogs ∧ d.nextCallLogId = db.nextCallLogId ∧
      d.users = db.users := by
  cases c
  · rw [if_neg (by simp)] at h
    cases h
    exact ⟨rfl, rfl, rfl⟩
  · rw [if_pos (by simp)] at h
    exact saveLeadUpdate_frame h

theorem createPathCallEvent_WF (db : DB) (now : Nat) (p : Payload)
    (inb : Bool) (vn : Option String) (callId : String)
    (phone : Option String) (a0 : Option UserDoc) (hwf : WFdb db) :
    WFdb (createPathCallEvent db now p inb vn callId phone a0).2 := by
  unfold createPathCallEvent
  split
  · exact hwf
  · exact hwf
  · rename_i lead db1 heq
    have hfr := resolveLeadForCreate_frame heq
    have hwf1 : WFdb db1 := WFdb_transfer hfr.1 hfr.2.1 hwf
    dsimp only
    split
    · exact hwf1
    · rename_i db2 heq2
      have hfr2 := leadFix_frame heq2
      have hwf2 : WFdb db2 := WFdb_transfer hfr2.1 hfr2.2.1 hwf1
      apply finishCallEvent_WF _ _ _ _ hwf2
      · intro _
        rw [hfr2.2.1]
        rfl
      · intro hfalse
        cases hfalse

theorem handleCallEvents_WF (env : Env) (db : DB) (now : Nat)
    (sig : Option String) (p : Payload) (hwf : WFdb db) :
    WFdb (handleCallEvents env db now sig p).2 := by
  unfold handleCallEvents
  split
  · exact hwf
  · dsimp only
    split
    · exact hwf
    · split
      · rename_i a0 r0 heq
        apply finishCallEvent_WF _ _ _ _ hwf
        · intro hfalse; cases hfalse
        · intro _ x hx hxid
          have hr0 : r0 ∈ db.callLogs := lookupCallLog_mem heq
          have hinj := List.inj_on_of_nodup_map hwf.2.1
          have hxr0 : x = r0 := hinj hx hr0 hxid
          rw [hxr0]
          rfl
      · exact createPathCallEvent_WF _ _ _ _ _ _ _ _ hwf

theorem handleInboundCall_WF (env : Env) (db : DB) (now : Nat)
    (sig : Option String) (p : Payload) (hwf : WFdb db) :
    WFdb (handleInboundCall env db now sig p).2 := by
  unfold handleInboundCall
  split
  · exact hwf
  · dsimp only
    split
    · exact hwf
    · rename_i lead db1 isNew heq
      have hwf1 : WFdb db1 := by
        split at heq
        · cases heq; exact hwf
        · split at heq
          · cases heq
            exact WFdb_transfer (insertLead_frame (by assumption)).1
              (insertLead_frame (by assumption)).2.1 hwf
          · cases heq
      split
      · exact hwf1
      · rename_i db2 heq2
        have hwf2 : WFdb db2 := WFdb_transfer (leadFix_frame heq2).1
          (leadFix_frame heq2).2.1 hwf1
        split
        · exact hwf2
        · rename_i db3 heq3
          have hwf3 : WFdb db3 := WFdb_insert hwf2 rfl heq3
          split
          · exact hwf3
          · rename_i db4 heq4
            exact WFdb_transfer (saveLeadUpdate_frame heq4).1
              (saveLeadUpdate_frame heq4).2.1 hwf3

theorem applyDelivery_WF (env : Env) (db : DB) (d : Delivery)
    (hwf : WFdb db) : WFdb (applyDelivery env db d) := by
  cases d with
  | callEvents now sig p => exact handleCallEvents_WF env db now sig p hwf
  | inboundCall now sig p => exact handleInboundCall_WF env db now sig p hwf

theorem applyDeliveries_WF (env : Env) (db : DB) (ds : List Delivery)
    (hwf : WFdb db) : WFdb (applyDeliveries env db ds) := by
  induction ds generalizing db with
  | nil => exact hwf
  | cons d ds ih => exact ih _ (applyDelivery_WF env db d hwf)

/-! # Claim C4 — one CallRecord per provider call id; lookup precedence -/

/-- C4: starting from any well-formed store, any sequence of deliveries to
either webhook endpoint leaves at most one CallRecord per distinct
provider call id (enforced by the unique sparse index checked at every
insert), and the record lookup of `handleCallEvents` consults the provider
call id first — the custom identifier is used only when no record matched
the provider call id. -/
theorem c4_theorem (env : Env) (db : DB) (ds : List Delivery)
    (hwf : WFdb db) :
    (∀ cid : String,
      ((applyDeliveries env db ds).callLogs.countP
        fun r => r.providerCallId == some cid) ≤ 1) ∧
    (∀ (db' : DB) (cid : String) (ci : Option String) (r : CallLogDoc),
      findCallLogByProviderId db' cid = some r →
      lookupCallLog db' cid ci = some r) ∧
    (∀ (db' : DB) (cid : String) (ci : Option String),
      findCallLogByProviderId db' cid = none →
      lookupCallLog db' cid ci =
        (match ci with
         | some c => findCallLogByCustomId db' c
         | none => none)) := by
  refine ⟨(applyDeliveries_WF env db ds hwf).1, ?_, ?_⟩
  · intro db' cid ci r h
    unfold lookupCallLog
    rw [h]
  · intro db' cid ci h
    unfold lookupCallLog
    rw [h]

/-- C4 witness: the theorem at a concrete initial store and delivery
sequence exercising both endpoints. -/
theorem c4_witness :
    (∀ cid : String,
      ((applyDeliveries plainEnv baseDb
          [.callEvents 1000 none eventCompleted,
           .callEvents 2000 none eventRinging,
           .inboundCall 3000 none eventRinging]).callLogs.countP
        fun r => r.providerCallId == some cid) ≤ 1) ∧
    (∀ (db' : DB) (cid : String) (ci : Option String) (r : CallLogDoc),
      findCallLogByProviderId db' cid = some r →
      lookupCallLog db' cid ci = some r) ∧
    (∀ (db' : DB) (cid : String) (ci : Option String),
      findCallLogByProviderId db' cid = none →
      lookupCallLog db' cid ci =
        (match ci with
         | some c => findCallLogByCustomId db' c
         | none => none)) :=
  c4_theorem plainEnv baseDb
    [.callEvents 1000 none eventCompleted,
     .callEvents 2000 none eventRinging,
     .inboundCall 3000 none eventRinging]
    (by refine ⟨?_, ?_, ?_, ?_⟩ <;> simp [baseDb, uniqueProviderIds])

/-! # Claim C2 — replay idempotence for id-carrying payloads

The counterexample above settles the id-less half; the lemmas below prove
the amended positive half: once a delivery has produced the CallRecord for
a payload's provider call id, further deliveries of the identical payload
leave the CallLog collection unchanged. -/

theorem orElse_self {α : Type} (a : Option α) : (a <|> a) = a := by
  cases a <;> rfl

theorem orElse_absorb {α : Type} (a b : Option α) :
    (a <|> (a <|> b)) = (a <|> b) := by
  cases a <;> rfl

theorem mergePayload_self (p : Payload) : mergePayload p p = p := by
  unfold mergePayload
  simp only [orElse_self]

theorem mergePayload_absorb (w p : Payload) :
    mergePayload (mergePayload w p) p = mergePayload w p := by
  unfold mergePayload
  dsimp only
  simp only [orElse_absorb]

theorem transferRecOf_indep (td : TransferInfo) (ht : td.time.isSome)
    (n m : Nat) : transferRecOf td n = transferRecOf td m := by
  obtain ⟨t, hteq⟩ := Option.isSome_iff_exists.mp ht
  simp [transferRecOf, hteq]

theorem updFull_now_indep (p : Payload) (htt : transferTimeOk p)
    (n m : Nat) (r : CallLogDoc) : updFull p n r = updFull p m r := by
  unfold updFull applyCommonFields
  cases htd : p.transfer_data with
  | none => simp [htd]
  | some td =>
    have ht := htt td htd
    simp [htd, transferRecOf_indep td ht n m]

theorem absorbed_applyCommonFields (p : Payload) (now : Nat)
    (r0 : CallLogDoc) (htt : transferTimeOk p)
    (h1 : r0.callStatus = mapSmartfloStatus (jsOr p.call_status p.event_type))
    (h9 : mergePayload r0.webhookData p = r0.webhookData)
    (h10 : (virtualNumOf p).isSome → r0.virtualNumber.isSome)
    (h11 : p.queue_id.isSome → r0.queueId.isSome)
    (h12 : isInboundPayload p = true → r0.callDirection = "inbound") :
    Absorbed p (applyCommonFields p now r0) := by
  unfold Absorbed applyCommonFields
  dsimp only
  refine ⟨h1, ?_, ?_, ?_, ?_, ?_, ?_, ?_, h9, h10, h11, h12⟩
  · intro s hs; simp [hs]
  · intro s hs; simp [hs]
  · intro d hd; simp [hd]
  · intro u hu; simp [hu]
  · intro d hd; simp [hd]
  · intro td htd n
    simp only [htd]
    exact congrArg some (transferRecOf_indep td (htt td htd) now n)
  · intro iv hiv; simp [hiv]

theorem absorbed_updFull (p : Payload) (now : Nat) (r : CallLogDoc)
    (htt : transferTimeOk p) : Absorbed p (updFull p now r) := by
  unfold updFull
  refine absorbed_applyCommonFields p now _ htt ?_ ?_ ?_ ?_ ?_
  · rfl
  · exact mergePayload_absorb r.webhookData p
  · intro hvn
    unfold updateFoundFields
    dsimp only
    cases rvirt : r.virtualNumber with
    | some v => simp [rvirt]
    | none => simp [rvirt, hvn]
  · intro hq
    unfold updateFoundFields
    dsimp only
    cases rq : r.queueId with
    | some v => simp [rq]
    | none => simp [rq, hq]
  · intro hin
    unfold updateFoundFields
    dsimp only
    rw [hin]
    by_cases hd : r.callDirection = "inbound"
    · simp [hd]
    · simp [hd]

theorem absorbed_new (p : Payload) (db1 : DB) (now : Nat) (cid : String)
    (lead : LeadDoc) (assigned : Option UserDoc) (htt : transferTimeOk p) :
    Absorbed p (applyCommonFields p now
      (newCallLogDoc db1 now p (isInboundPayload p) (virtualNumOf p) cid
        lead assigned)) := by
  refine absorbed_applyCommonFields p now _ htt ?_ ?_ ?_ ?_ ?_
  · rfl
  · exact mergePayload_self p
  · intro h; exact h
  · intro h; exact h
  · intro hin
    unfold newCallLogDoc
    dsimp only
    rw [hin]
    rfl

theorem absorbed_eq (p : Payload) (r : CallLogDoc) (hab : Absorbed p r)
    (n : Nat) : updFull p n r = r := by
  obtain ⟨h1, h2, h3, h4, h5, h6, h7, h8, h9, h10, h11, h12⟩ := hab
  unfold updFull applyCommonFields updateFoundFields
  cases r with
  | mk rid rlead ruid ragent rdest rcaller rvirt rprov rcust rstat rdir rqid
      rqwt rass rrout rst ren rdur rrec rdisp rtd rivr rsrc rwd =>
    dsimp only at h1 h2 h3 h4 h5 h6 h7 h8 h9 h10 h11 h12 ⊢
    simp only [CallLogDoc.mk.injEq]
    refine ⟨trivial, trivial, trivial, trivial, trivial, trivial, ?_, trivial,
      trivial, h1.symm, ?_, ?_, ?_, trivial, trivial, ?_, ?_, ?_, ?_, ?_, ?_,
      ?_, trivial, h9⟩
    · cases rvirt with
      | some w => simp
      | none =>
        cases hv : virtualNumOf p with
        | none => simp
        | some v => exact absurd (h10 (by simp [hv])) (by simp)
    · cases hin : isInboundPayload p with
      | false => simp
      | true => simp [h12 hin]
    · cases hq : p.queue_id with
      | none => simp
      | some v =>
        cases rqid with
        | some w => simp
        | none => exact absurd (h11 (by simp [hq])) (by simp)
    · cases hq : p.queue_id with
      | none => simp
      | some v =>
        cases rqid with
        | some w => simp
        | none => exact absurd (h11 (by simp [hq])) (by simp)
    · cases hs : p.start_time with
      | none => rfl
      | some s => exact (h2 s hs).symm
    · cases hs : p.end_time with
      | none => rfl
      | some s => exact (h3 s hs).symm
    · cases hd : p.duration with
      | none => rfl
      | some d => exact (h4 d hd).symm
    · cases hu : p.recording_url with
      | none => rfl
      | some u => exact (h5 u hu).symm
    · cases hd : p.disposition with
      | none => rfl
      | some d => exact (h6 d hd).symm
    · cases htd : p.transfer_data with
      | none => rfl
      | some td => exact (h7 td htd n).symm
    · cases hiv : p.ivr_data with
      | none => rfl
      | some iv => exact (h8 iv hiv).symm

theorem resolveAssignedUser_congr (db db2 : DB) (p : Payload) (inb : Bool)
    (h : db.users = db2.users) :
    resolveAssignedUser db p inb = resolveAssignedUser db2 p inb := by
  unfold resolveAssignedUser findUserByAgentNumber userFindByIdCast
    findUserByIdVal
  rw [h]

theorem lookup_none_provider {db : DB} {callId : String}
    {ci : Option String} (h : lookupCallLog db callId ci = none) :
    findCallLogByProviderId db callId = none := by
  unfold lookupCallLog at h
  split at h
  · cases h
  · assumption

theorem lookup_some_cases {db : DB} {callId : String} {ci : Option String}
    {r0 : CallLogDoc} (h : lookupCallLog db callId ci = some r0) :
    findCallLogByProviderId db callId = some r0 ∨
    findCallLogByProviderId db callId = none := by
  unfold lookupCallLog at h
  split at h
  · rename_i r heq
    cases h
    exact Or.inl heq
  · rename_i heq
    exact Or.inr heq

theorem findProvider_props {db : DB} {cid : String} {r0 : CallLogDoc}
    (h : findCallLogByProviderId db cid = some r0) :
    r0 ∈ db.callLogs ∧ r0.providerCallId = some cid := by
  unfold findCallLogByProviderId at h
  refine ⟨List.mem_of_find?_eq_some h, ?_⟩
  have hp := List.find?_some h
  simpa using hp

theorem findProvider_none_all {db : DB} {cid : String}
    (h : findCallLogByProviderId db cid = none) :
    ∀ x ∈ db.callLogs, ¬ x.providerCallId = some cid := by
  unfold findCallLogByProviderId at h
  intro x hx hpid
  have hc := List.find?_eq_none.mp h x hx
  simp [hpid] at hc

theorem finish_false_cases (db : DB) (now : Nat) (R : CallLogDoc) :
    (validCallLogDoc R = false ∧
      (finishCallEvent db now R false).2.callLogs = db.callLogs ∧
      (finishCallEvent db now R false).2.users = db.users) ∨
    (validCallLogDoc R = true ∧
      (finishCallEvent db now R false).2.callLogs =
        (db.callLogs.map fun x => if x.id == R.id then R else x) ∧
      (finishCallEvent db now R false).2.users = db.users) := by
  unfold finishCallEvent
  simp only [Bool.false_eq_true, if_false]
  split
  · rename_i e heq
    refine Or.inl ⟨?_, rfl, rfl⟩
    unfold saveCallLogUpdate at heq
    split at heq
    · cases heq
    · rename_i hnv
      exact Bool.eq_false_iff.mpr hnv
  · rename_i db1 heq
    obtain ⟨hv, hcl, _, hus, _⟩ := saveCallLogUpdate_ok heq
    refine Or.inr ⟨hv, ?_, ?_⟩
    · split
      · exact hcl
      · rename_i db2 heq2
        rw [(updateLeadAfterCall_frame heq2).1]; exact hcl
    · split
      · exact hus
      · rename_i db2 heq2
        rw [(updateLeadAfterCall_frame heq2).2.2]; exact hus

theorem finish_true_callLogs (db : DB) (now : Nat) (R : CallLogDoc) :
    (finishCallEvent db now R true).2.callLogs = db.callLogs ∨
    (finishCallEvent db now R true).2.callLogs = db.callLogs ++ [R] := by
  unfold finishCallEvent
  simp only [if_true]
  split
  · exact Or.inl rfl
  · rename_i db1 heq
    obtain ⟨_, _, hcl, _, _⟩ := insertCallLog_ok heq
    refine Or.inr ?_
    split
    · exact hcl
    · rename_i db2 heq2
      rw [(updateLeadAfterCall_frame heq2).1]; exact hcl

theorem createPath_callLogs (db : DB) (now : Nat) (p : Payload) (inb : Bool)
    (vn : Option String) (callId : String) (phone : Option String)
    (a0 : Option UserDoc) :
    (createPathCallEvent db now p inb vn callId phone a0).2.callLogs =
      db.callLogs ∨
    (∃ db1 lead assigned,
      (createPathCallEvent db now p inb vn callId phone a0).2.callLogs =
        db.callLogs ++
          [applyCommonFields p now
            (newCallLogDoc db1 now p inb vn callId lead assigned)]) := by
  unfold createPathCallEvent
  split
  · exact Or.inl rfl
  · exact Or.inl rfl
  · rename_i lead db1 heq
    have hfr := resolveLeadForCreate_frame heq
    dsimp only
    split
    · exact Or.inl hfr.1
    · rename_i db2 heq2
      have hfr2 := leadFix_frame heq2
      rcases finish_true_callLogs db2 now
          (applyCommonFields p now
            (newCallLogDoc db1 now p inb vn callId lead
              (completeAssignedUser db1 inb lead a0))) with h | h
      · left
        rw [h, hfr2.1, hfr.1]
      · right
        exact ⟨db1, lead, completeAssignedUser db1 inb lead a0,
          by rw [h, hfr2.1, hfr.1]⟩

theorem delivery_ReplayStable (env : Env) (db : DB) (now0 : Nat)
    (sig : Option String) (p : Payload) (cid : String)
    (hcid : p.call_id = some cid) (htt : transferTimeOk p) (hwf : WFdb db) :
    ReplayStable env sig p (handleCallEvents env db now0 sig p).2 := by
  have hcc : callIdOf p now0 = cid := by simp [callIdOf, hcid]
  unfold handleCallEvents
  split
  · rename_i hg
    exact Or.inl hg
  · rename_i hg
    dsimp only
    split
    · rename_i e he
      exact Or.inr (Or.inl ⟨e, he⟩)
    · rename_i a0 ha0
      split
      · rename_i r0 hfound
        rw [hcc] at hfound
        have hr0mem : r0 ∈ db.callLogs := lookupCallLog_mem hfound
        refine Or.inr (Or.inr ?_)
        intro r hrmem hrpid
        rw [hcid] at hrpid
        rcases finish_false_cases db now0
            (applyCommonFields p now0
              (updateFoundFields p (isInboundPayload p) (virtualNumOf p) r0))
          with ⟨hvF, hcl, _⟩ | ⟨hvT, hcl, _⟩
        · rw [hcl] at hrmem
          rcases lookup_some_cases hfound with hprov | hprovnone
          · obtain ⟨_, hr0pid⟩ := findProvider_props hprov
            have hrr0 : r = r0 := by
              by_contra hne
              have h2c : 2 ≤ db.callLogs.countP
                  (fun x => x.providerCallId == some cid) :=
                two_le_countP hrmem hr0mem hne
                  (by simp [hrpid]) (by simp [hr0pid])
              have hle := hwf.1 cid
              omega
            right
            intro m
            rw [hrr0, updFull_now_indep p htt m now0]
            exact hvF
          · exact absurd hrpid (findProvider_none_all hprovnone r hrmem)
        · rw [hcl] at hrmem
          obtain ⟨x, hx, hfx⟩ := List.mem_map.mp hrmem
          by_cases hid : (x.id == (applyCommonFields p now0
              (updateFoundFields p (isInboundPayload p) (virtualNumOf p)
                r0)).id) = true
          · rw [if_pos hid] at hfx
            left
            rw [← hfx]
            exact absorbed_updFull p now0 r0 htt
          · rw [if_neg hid] at hfx
            rw [← hfx] at hrpid
            rcases lookup_some_cases hfound with hprov | hprovnone
            · obtain ⟨hr0m, hr0pid⟩ := findProvider_props hprov
              exfalso
              by_cases hxr : x = r0
              · apply hid
                rw [hxr]
                exact beq_self_eq_true r0.id
              · have h2c : 2 ≤ db.callLogs.countP
                    (fun y => y.providerCallId == some cid) :=
                  two_le_countP hx hr0m hxr
                    (by simp [hrpid]) (by simp [hr0pid])
                have hle := hwf.1 cid
                omega
            · exact absurd hrpid (findProvider_none_all hprovnone x hx)
      · rename_i hfound
        rw [hcc] at hfound
        have hall := findProvider_none_all (lookup_none_provider hfound)
        refine Or.inr (Or.inr ?_)
        intro r hrmem hrpid
        rw [hcid] at hrpid
        rcases createPath_callLogs db now0 p (isInboundPayload p)
            (virtualNumOf p) (callIdOf p now0)
            (phoneToMatchOf p (isInboundPayload p)) a0
          with hcl | ⟨db1, lead, assigned, hcl⟩
        · rw [hcl] at hrmem
          exact absurd hrpid (hall r hrmem)
        · rw [hcl] at hrmem
          rcases List.mem_append.mp hrmem with hin | hin
          · exact absurd hrpid (hall r hin)
          · have hr : r = applyCommonFields p now0
                (newCallLogDoc db1 now0 p (isInboundPayload p)
                  (virtualNumOf p) (callIdOf p now0) lead assigned) :=
              List.mem_singleton.mp hin
            left
            rw [hr]
            exact absorbed_new p db1 now0 (callIdOf p now0) lead assigned htt

theorem replay_step (env : Env) (sig : Option String) (p : Payload)
    (cid : String) (st1 st : DB) (t : Nat)
    (hcid : p.call_id = some cid) (htt : transferTimeOk p)
    (hstab : ReplayStable env sig p st1)
    (hex : ∃ r ∈ st1.callLogs, r.providerCallId = some cid)
    (hL : st.callLogs = st1.callLogs) (hU : st.users = st1.users)
    (hwf : WFdb st) :
    (handleCallEvents env st t sig p).2.callLogs = st1.callLogs ∧
    (handleCallEvents env st t sig p).2.users = st1.users := by
  obtain ⟨rx, hrxmem, hrxpid⟩ := hex
  have hrxmem2 : rx ∈ st.callLogs := by rw [hL]; exact hrxmem
  have hcc : callIdOf p t = cid := by simp [callIdOf, hcid]
  have hfind : st.callLogs.find? (fun x => x.providerCallId == some cid) =
      some rx := find_provider_eq (hwf.1 cid) hrxmem2 hrxpid
  unfold handleCallEvents
  split
  · exact ⟨hL, hU⟩
  · rename_i hg
    dsimp only
    split
    · exact ⟨hL, hU⟩
    · rename_i a0 ha0
      split
      · rename_i r0 hfound
        rw [hcc] at hfound
        unfold lookupCallLog findCallLogByProviderId at hfound
        rw [hfind] at hfound
        simp at hfound
        subst hfound
        rcases hstab with hgate | ⟨e, herr⟩ | hclause
        · exact absurd hgate hg
        · rw [resolveAssignedUser_congr st st1 p (isInboundPayload p) hU,
            herr] at ha0
          cases ha0
        · have habs := hclause rx hrxmem (hrxpid.trans hcid.symm)
          rcases habs with hab | hinv
          · rw [show applyCommonFields p t
                (updateFoundFields p (isInboundPayload p) (virtualNumOf p)
                  rx) = rx from absorbed_eq p rx hab t]
            rcases finish_false_cases st t rx with ⟨_, hcl, hus⟩ |
              ⟨_, hcl, hus⟩
            · exact ⟨hcl.trans hL, hus.trans hU⟩
            · have hrep : st.callLogs.map
                  (fun x => if x.id == rx.id then rx else x) = st.callLogs :=
                map_replace_self hwf.2.1 hrxmem2
              exact ⟨(hcl.trans hrep).trans hL, hus.trans hU⟩
          · have hvF2 : validCallLogDoc (applyCommonFields p t
                (updateFoundFields p (isInboundPayload p) (virtualNumOf p)
                  rx)) = false := hinv t
            rcases finish_false_cases st t (applyCommonFields p t
                (updateFoundFields p (isInboundPayload p) (virtualNumOf p)
                  rx)) with ⟨_, hcl, hus⟩ | ⟨hvT, _, _⟩
            · exact ⟨hcl.trans hL, hus.trans hU⟩
            · rw [hvF2] at hvT
              exact absurd hvT Bool.false_ne_true
      · rename_i hfound
        rw [hcc] at hfound
        have hnone := lookup_none_provider hfound
        unfold findCallLogByProviderId at hnone
        rw [hfind] at hnone
        cases hnone

/-- C2: for a payload that carries a `call_id` (and whose `transfer_data`,
when present, carries a `time`), once a delivery has produced a CallRecord
with that provider call id, replaying the identical payload with the same
signature header at any sequence of later clock readings leaves the
CallLog collection — including every field of that record — exactly as
after the single delivery, and exactly one record with that provider call
id is stored.  (Payloads without `call_id` are keyed by a fresh
`WEBHOOK_<Date.now()>` identifier on every delivery and are never
deduplicated; that half is the separate counterexample.) -/
theorem c2_theorem (env : Env) (db : DB) (now0 : Nat) (sig : Option String)
    (p : Payload) (cid : String) (nows : List Nat)
    (hcid : p.call_id = some cid) (htt : transferTimeOk p) (hwf : WFdb db)
    (hex : ∃ r ∈ (handleCallEvents env db now0 sig p).2.callLogs,
      r.providerCallId = some cid) :
    (replayCallEvents env sig p (handleCallEvents env db now0 sig p).2
        nows).callLogs =
      (handleCallEvents env db now0 sig p).2.callLogs ∧
    (replayCallEvents env sig p (handleCallEvents env db now0 sig p).2
        nows).callLogs.countP
      (fun r => r.providerCallId == some cid) = 1 := by
  have hwf1 : WFdb (handleCallEvents env db now0 sig p).2 :=
    handleCallEvents_WF env db now0 sig p hwf
  have hstab : ReplayStable env sig p (handleCallEvents env db now0 sig p).2 :=
    delivery_ReplayStable env db now0 sig p cid hcid htt hwf
  have main : ∀ (ns : List Nat) (st : DB),
      st.callLogs = (handleCallEvents env db now0 sig p).2.callLogs →
      st.users = (handleCallEvents env db now0 sig p).2.users →
      WFdb st →
      (replayCallEvents env sig p st ns).callLogs =
        (handleCallEvents env db now0 sig p).2.callLogs := by
    intro ns
    induction ns with
    | nil => intro st hL _ _; exact hL
    | cons t ts ih =>
      intro st hL hU hwfst
      have hstep := replay_step env sig p cid
        (handleCallEvents env db now0 sig p).2 st t hcid htt hstab hex hL hU
        hwfst
      have hwfstep := handleCallEvents_WF env st t sig p hwfst
      exact ih _ hstep.1 hstep.2 hwfstep
  have hres := main nows (handleCallEvents env db now0 sig p).2 rfl rfl hwf1
  refine ⟨hres, ?_⟩
  rw [hres]
  obtain ⟨r, hrm, hrp⟩ := hex
  have h1 : 0 < (handleCallEvents env db now0 sig p).2.callLogs.countP
      (fun r => r.providerCallId == some cid) :=
    List.countP_pos_iff.mpr ⟨r, hrm, by simp [hrp]⟩
  have h2 := hwf1.1 cid
  omega

/-- C2 witness: the completed-call payload delivered once at clock 1000 and
replayed at clocks 2000 and 3000 leaves the single CallRecord `X1`
untouched. -/
theorem c2_witness :
    (replayCallEvents plainEnv none eventCompleted
        (handleCallEvents plainEnv baseDb 1000 none eventCompleted).2
        [2000, 3000]).callLogs =
      (handleCallEvents plainEnv baseDb 1000 none eventCompleted).2.callLogs ∧
    (replayCallEvents plainEnv none eventCompleted
        (handleCallEvents plainEnv baseDb 1000 none eventCompleted).2
        [2000, 3000]).callLogs.countP
      (fun r => r.providerCallId == some "X1") = 1 :=
  c2_theorem plainEnv baseDb 1000 none eventCompleted "X1" [2000, 3000]
    rfl
    (by intro td h; simp [eventCompleted] at h)
    (by refine ⟨?_, ?_, ?_, ?_⟩ <;> simp [baseDb, uniqueProviderIds])
    (by decide)

end DMS
